import Mathlib

/-!
# Verification of the tezit-protocol/relay federation engine

Shallow embedding of the federation engine of the relay:

* Signature Codec (`src/services/httpSignature.ts`, newer revision with the
  60-second window and the `x-request-nonce` component),
* Bundle Codec (`src/services/federationBundle.ts`) over a model of
  JavaScript values with explicit object key insertion order,
* context sanitization (`src/services/sanitize.ts`),
* Discovery Cache with SSRF guard (`src/services/discovery.ts`),
* Inbound Acceptance Pipeline (`POST /federation/inbox`, newer revision
  that resolves recipients before creating the tez),
* Trust Registry and handshake (`POST /federation/verify`,
  `PATCH /admin/federation/servers/:host`, `src/services/welcomeCookie.ts`),
* Outbound Delivery Engine (`src/services/federationOutbound.ts`).

Modelling conventions used throughout:

* JavaScript string truthiness (`if (s)`) is `s` nonempty; `undefined` is
  `Option.none`.
* SHA-256, Ed25519 verification and Unicode NFC normalization are carried
  as explicit function parameters: the theorems hold for every choice of
  those functions (with an injectivity hypothesis where collision
  resistance of SHA-256 is what the code relies on).
* ISO-8601 timestamps are modelled as milliseconds (`Nat`); the ISO string
  order used by the SQL comparison is isomorphic to the numeric order.
* `try`/`catch` is modelled with `Except`; functions that the source
  guards with a blanket `catch { return false }` are total `Bool`-valued
  functions here.
* Database tables are association lists; `randomUUID()` results are
  explicit parameters.
* Audit-log writes are elided (the audit store is outside the federation
  engine's data model).
-/

/-! ## JavaScript string helpers -/

/-- JavaScript string truthiness: the empty string is falsy. -/
def jsStrTruthy (s : String) : Bool := !s.data.isEmpty

/-- Truthiness of a possibly-missing header / field
(`undefined` and `""` are falsy). -/
def jsTruthyOptStr : Option String → Bool
  | none => false
  | some s => jsStrTruthy s

/-- JavaScript `String.prototype.length` counts UTF-16 code units:
characters above the basic multilingual plane count twice. -/
def utf16Len (c : Char) : Nat := if c.toNat < 65536 then 1 else 2

/-- UTF-16 length of a string, as JavaScript `.length` reports it. -/
def utf16Length (s : String) : Nat := (s.data.map utf16Len).sum

/-! ## Signature Codec — `httpSignature.ts` (newer revision)

`signRequest` needs real key material, so only the verification side is
embedded.  The SHA-256-base64 digest and the Ed25519 verifier are
parameters `sha256b64` and `edVerify`; `parseDate` models
`new Date(string).getTime()` returning `none` for an unparseable date
(JavaScript `NaN`, for which every `>` comparison is false). -/

structure VerifyParams where
  method : String
  path : String
  host : String
  date : String
  digest : String
  signature : String
  signatureInput : String
  body : String
  publicKeyBase64 : String
  nonce : Option String
deriving Repr, DecidableEq

/-- `computeDigest`: `"SHA-256=" + base64(sha256(body))`. -/
def computeDigest (sha256b64 : String → String) (body : String) : String :=
  "SHA-256=" ++ sha256b64 body

/-- `buildSigningString`: the fixed component list, plus the
`x-request-nonce` line when the nonce is truthy. -/
def buildSigningString (method path host date digest : String)
    (nonce : Option String) : String :=
  let lines := ["(request-target): " ++ method.toLower ++ " " ++ path,
                "host: " ++ host,
                "date: " ++ date,
                "digest: " ++ digest]
  let lines := match nonce with
    | some n => if jsStrTruthy n then lines ++ ["x-request-nonce: " ++ n] else lines
    | none => lines
  String.intercalate "\n" lines

/-- `verifyRequest` (newer revision): digest check, 60-second clock-skew
window on the `Date` header, then Ed25519 verification of the
reconstructed signing string.  The source wraps the whole body in
`try { ... } catch { return false }`; the embedding is a total
`Bool`-valued function, so malformed input yields `false`, never an
exception. -/
def verifyRequest (sha256b64 : String → String)
    (edVerify : String → String → String → Bool)
    (parseDate : String → Option Int) (nowMs : Int) (p : VerifyParams) : Bool :=
  let expectedDigest := computeDigest sha256b64 p.body
  if p.digest ≠ expectedDigest then false
  else
    let dateRejected : Bool := match parseDate p.date with
      | some t => decide (60 * 1000 < (nowMs - t).natAbs)
      | none => false
    if dateRejected then false
    else
      edVerify p.publicKeyBase64
        (buildSigningString p.method p.path p.host p.date p.digest p.nonce)
        p.signature

/-- C4: whenever the `Date` header parses to a time more than 60 seconds
from the verifier's clock — in either direction, which `Int.natAbs`
captures — `verifyRequest` returns `false` for every digest function,
every Ed25519 verifier (in particular one that would accept the
signature), and every request.  The malformed-input half of the claim is
carried by the shape of the embedding: `verifyRequest` is a total
`Bool`-valued function mirroring the source's blanket `catch`, so no
input makes it throw. -/
theorem verifyRequest_rejects_clock_skew
    (sha256b64 : String → String) (edVerify : String → String → String → Bool)
    (parseDate : String → Option Int) (nowMs t : Int) (p : VerifyParams)
    (hparse : parseDate p.date = some t)
    (hskew : 60 * 1000 < (nowMs - t).natAbs) :
    verifyRequest sha256b64 edVerify parseDate nowMs p = false := by
  unfold verifyRequest
  by_cases hd : p.digest ≠ computeDigest sha256b64 p.body
  · simp [hd]
  · simp only [hd, if_false]
    rw [hparse]
    simp [hskew]

/-- Witness for C4 at a concrete request: clock at 61001 ms, date header
parsing to 0 ms, a verifier that accepts everything — verification still
returns `false`. -/
theorem verifyRequest_rejects_clock_skew_witness :
    verifyRequest (fun s => s) (fun _ _ _ => true) (fun _ => some 0) 61001
      { method := "POST", path := "/federation/inbox", host := "b.example",
        date := "d", digest := "SHA-256=x", signature := "sig",
        signatureInput := "keyId=\"a\"", body := "x",
        publicKeyBase64 := "pk", nonce := none } = false :=
  verifyRequest_rejects_clock_skew (fun s => s) (fun _ _ _ => true)
    (fun _ => some 0) 61001 0 _ rfl (by decide)

/-! ## A model of JavaScript values and `JSON.stringify`

`JSON.stringify` serializes object keys in insertion order, so an object
is a list of key/value pairs in insertion order (JavaScript objects never
hold duplicate keys, and none of the objects built by the relay do). -/

inductive JsValue where
  | str (s : String)
  | num (n : Int)
  | jsBool (b : Bool)
  | null
  | arr (xs : List JsValue)
  | obj (fields : List (String × JsValue))

/-- One hexadecimal digit, lowercase, as `JSON.stringify` emits it. -/
def hexDigit (n : Nat) : Char :=
  if n < 10 then Char.ofNat (48 + n) else Char.ofNat (87 + n)

/-- Four-digit hexadecimal rendering used for `\uXXXX` escapes. -/
def hex4 (n : Nat) : String :=
  String.mk [hexDigit ((n / 4096) % 16), hexDigit ((n / 256) % 16),
             hexDigit ((n / 16) % 16), hexDigit (n % 16)]

/-- JSON string-character escaping as `JSON.stringify` performs it. -/
def jsonEscapeChar (c : Char) : String :=
  if c = '"' then "\\\""
  else if c = '\\' then "\\\\"
  else if c = '\n' then "\\n"
  else if c = '\r' then "\\r"
  else if c = '\t' then "\\t"
  else if c.toNat = 8 then "\\b"
  else if c.toNat = 12 then "\\f"
  else if c.toNat < 32 then "\\u" ++ hex4 c.toNat
  else String.singleton c

/-- A JSON string literal: quotes around the escaped characters. -/
def jsonEscape (s : String) : String :=
  "\"" ++ String.join (s.data.map jsonEscapeChar) ++ "\""

mutual

/-- `JSON.stringify`, with object keys emitted in insertion order. -/
def jsonStringify : JsValue → String
  | .str s => jsonEscape s
  | .num n => toString n
  | .jsBool b => if b then "true" else "false"
  | .null => "null"
  | .arr xs => "[" ++ String.intercalate "," (jsonStringifyList xs) ++ "]"
  | .obj fs => "\x7b" ++ String.intercalate "," (jsonStringifyFields fs) ++ "\x7d"

def jsonStringifyList : List JsValue → List String
  | [] => []
  | x :: xs => jsonStringify x :: jsonStringifyList xs

def jsonStringifyFields : List (String × JsValue) → List String
  | [] => []
  | (k, v) :: fs => (jsonEscape k ++ ":" ++ jsonStringify v) :: jsonStringifyFields fs

end

/-- Property access `v[k]`: `none` is JavaScript `undefined`. -/
def getField : JsValue → String → Option JsValue
  | .obj fs, k => (fs.find? (fun f => f.1 = k)).map Prod.snd
  | _, _ => none

/-- Replace the value stored under an existing key, keeping key order. -/
def setField : JsValue → String → JsValue → JsValue
  | .obj fs, k, v => .obj (fs.map (fun f => if f.1 = k then (f.1, v) else f))
  | x, _, _ => x

/-- JavaScript truthiness of a possibly-`undefined` value. -/
def jsTruthy : Option JsValue → Bool
  | none => false
  | some (.str s) => jsStrTruthy s
  | some (.num n) => decide (n ≠ 0)
  | some (.jsBool b) => b
  | some .null => false
  | some (.arr _) => true
  | some (.obj _) => true

/-- `typeof v === "string"`. -/
def isStringJs : Option JsValue → Bool
  | some (.str _) => true
  | _ => false

/-- `Array.isArray(v)`. -/
def isArrayJs : Option JsValue → Bool
  | some (.arr _) => true
  | _ => false

/-- `typeof v === "object"` (true for objects, arrays and `null`). -/
def isObjectTypeof : Option JsValue → Bool
  | some (.obj _) => true
  | some (.arr _) => true
  | some .null => true
  | _ => false

mutual

/-- JavaScript `String(v)` coercion on a defined value. -/
def jsDisplayVal : JsValue → String
  | .str s => s
  | .num n => toString n
  | .jsBool b => if b then "true" else "false"
  | .null => "null"
  | .arr xs => String.intercalate "," (jsDisplayList xs)
  | .obj _ => "[object Object]"

def jsDisplayList : List JsValue → List String
  | [] => []
  | x :: xs => jsDisplayVal x :: jsDisplayList xs

end

/-- JavaScript `String(v)` coercion, used by template literals
(`undefined` displays as the word `undefined`). -/
def jsDisplay : Option JsValue → String
  | none => "undefined"
  | some v => jsDisplayVal v

/-! ## Bundle Codec — `federationBundle.ts`

The typed shapes of `FederationBundle["tez"]` and
`FederationBundle["context"]`, together with their runtime `JsValue`
images in the key insertion order used by the callers
(`routeToFederation` / `welcomeCookie.ts` build the `tez` literal in the
order `id, threadId, parentTezId, surfaceText, type, urgency,
actionRequested, visibility, createdAt`). -/

structure TezData where
  id : String
  threadId : Option String
  parentTezId : Option String
  surfaceText : String
  type : String
  urgency : String
  actionRequested : Option String
  visibility : String
  createdAt : String
deriving Repr, DecidableEq

structure CtxItem where
  layer : String
  content : String
  mimeType : Option String
  confidence : Option Int
  source : Option String
deriving Repr, DecidableEq

structure ServerIdentity where
  serverId : String
  publicKey : String
  privateKeyPem : String
  host : String
deriving Repr, DecidableEq

/-- `string | null` fields serialize as a JSON string or `null`. -/
def optStrJs : Option String → JsValue
  | some s => .str s
  | none => .null

/-- `number | null` fields. -/
def optNumJs : Option Int → JsValue
  | some n => .num n
  | none => .null

/-- Runtime value of a tez payload object, keys in insertion order. -/
def TezData.toJs (t : TezData) : JsValue :=
  .obj [("id", .str t.id), ("threadId", optStrJs t.threadId),
        ("parentTezId", optStrJs t.parentTezId),
        ("surfaceText", .str t.surfaceText), ("type", .str t.type),
        ("urgency", .str t.urgency),
        ("actionRequested", optStrJs t.actionRequested),
        ("visibility", .str t.visibility), ("createdAt", .str t.createdAt)]

/-- Runtime value of a context item, keys in insertion order. -/
def CtxItem.toJs (c : CtxItem) : JsValue :=
  .obj [("layer", .str c.layer), ("content", .str c.content),
        ("mimeType", optStrJs c.mimeType),
        ("confidence", optNumJs c.confidence), ("source", optStrJs c.source)]

/-- `computeBundleHash(tezData, context)`:
`sha256hex(JSON.stringify({ context, tez: tezData }))`.  Despite the
source comment "Sort keys recursively for canonical JSON", only the two
top-level keys have a fixed order — `JSON.stringify` emits the keys of
`tezData` and of each context item in their insertion order. -/
def computeBundleHash (sha256hex : String → String)
    (tezData context : JsValue) : String :=
  sha256hex (jsonStringify (.obj [("context", context), ("tez", tezData)]))

structure FederationBundle where
  protocol_version : String
  bundle_type : String
  sender_server : String
  sender_server_id : String
  fromAddr : String
  toAddrs : List String
  tez : TezData
  context : List CtxItem
  bundle_hash : String
  signed_at : String
deriving Repr, DecidableEq

/-- `createBundle`: envelope fields from the identity, hash over the
typed payload, `signed_at` from the clock (passed as `nowIso`). -/
def createBundle (sha256hex : String → String) (nowIso : String)
    (tezData : TezData) (context : List CtxItem) (fromAddr : String)
    (toAddrs : List String) (identity : ServerIdentity) : FederationBundle :=
  { protocol_version := "1.2.4"
    bundle_type := "federation_delivery"
    sender_server := identity.host
    sender_server_id := identity.serverId
    fromAddr := fromAddr
    toAddrs := toAddrs
    tez := tezData
    context := context
    bundle_hash := computeBundleHash sha256hex tezData.toJs
      (.arr (context.map CtxItem.toJs))
    signed_at := nowIso }

/-- Runtime value of a `FederationBundle`, keys in the insertion order of
the object literal returned by `createBundle`. -/
def FederationBundle.toJs (b : FederationBundle) : JsValue :=
  .obj [("protocol_version", .str b.protocol_version),
        ("bundle_type", .str b.bundle_type),
        ("sender_server", .str b.sender_server),
        ("sender_server_id", .str b.sender_server_id),
        ("from", .str b.fromAddr),
        ("to", .arr (b.toAddrs.map JsValue.str)),
        ("tez", b.tez.toJs),
        ("context", .arr (b.context.map CtxItem.toJs)),
        ("bundle_hash", .str b.bundle_hash),
        ("signed_at", .str b.signed_at)]

/-- Strict equality `v === lit` of a possibly-undefined value against a
string literal. -/
def isStrEqJs (v : Option JsValue) (lit : String) : Bool :=
  match v with
  | some (.str t) => t = lit
  | _ => false

/-- `validateBundle(bundle)` on an arbitrary runtime value: the ordered
structural checks, then the hash-integrity recomputation as the final,
decisive check.  Returns `none` when valid, `some message` otherwise. -/
def validateBundle (sha256hex : String → String) (bundle : JsValue) : Option String :=
  if !(jsTruthy (some bundle) && isObjectTypeof (some bundle)) then
    some "Bundle must be an object"
  else if !(isStrEqJs (getField bundle "bundle_type") "federation_delivery") then
    some ("Invalid bundle_type: " ++ jsDisplay (getField bundle "bundle_type"))
  else if !(jsTruthy (getField bundle "sender_server") &&
            isStringJs (getField bundle "sender_server")) then
    some "Missing sender_server"
  else if !(jsTruthy (getField bundle "sender_server_id") &&
            isStringJs (getField bundle "sender_server_id")) then
    some "Missing sender_server_id"
  else if !(jsTruthy (getField bundle "from") &&
            isStringJs (getField bundle "from")) then
    some "Missing from address"
  else
    match getField bundle "to" with
    | some (.arr toArr) =>
      if toArr.isEmpty then some "Missing or empty to addresses"
      else if !(jsTruthy (getField bundle "tez") &&
                isObjectTypeof (getField bundle "tez")) then
        some "Missing tez payload"
      else
        let tezVal := (getField bundle "tez").getD .null
        if !(jsTruthy (getField tezVal "id") &&
             jsTruthy (getField tezVal "surfaceText") &&
             jsTruthy (getField tezVal "createdAt")) then
          some "Missing required tez fields (id, surfaceText, createdAt)"
        else
          match getField bundle "context" with
          | some (.arr _) =>
            if !(jsTruthy (getField bundle "bundle_hash") &&
                 isStringJs (getField bundle "bundle_hash")) then
              some "Missing bundle_hash"
            else
              let expectedHash := computeBundleHash sha256hex tezVal
                ((getField bundle "context").getD .null)
              if !(isStrEqJs (getField bundle "bundle_hash") expectedHash) then
                some "Bundle hash mismatch — payload may have been tampered with"
              else none
          | _ => some "Missing context array"
    | _ => some "Missing or empty to addresses"

/-! ## C5 — the canonicalization property of `computeBundleHash`

The runtime values of two `tez` payloads that hold the same fields with
the same values but were constructed with a different key insertion
order.  `tezInsertionOrderB` lists the same nine pairs as
`tezInsertionOrderA`, with the first two swapped. -/

def tezInsertionOrderA : JsValue :=
  .obj [("id", .str "t1"), ("threadId", .null), ("parentTezId", .null),
        ("surfaceText", .str "hello"), ("type", .str "note"),
        ("urgency", .str "normal"), ("actionRequested", .null),
        ("visibility", .str "dm"), ("createdAt", .str "2026-02-03T04:05:06.000Z")]

def tezInsertionOrderB : JsValue :=
  .obj [("threadId", .null), ("id", .str "t1"), ("parentTezId", .null),
        ("surfaceText", .str "hello"), ("type", .str "note"),
        ("urgency", .str "normal"), ("actionRequested", .null),
        ("visibility", .str "dm"), ("createdAt", .str "2026-02-03T04:05:06.000Z")]

/-- C5: `computeBundleHash` is NOT key-order independent.  For every
injective hash function (injectivity is what collision-resistant SHA-256
provides on these short inputs), the two payloads above — equal field
sets, equal values, different insertion order — receive different bundle
hashes, because `JSON.stringify({ context, tez })` never sorts the keys
of the inner objects, contradicting the function's own
"Sort keys recursively for canonical JSON" comment. -/
theorem computeBundleHash_depends_on_key_order (sha256hex : String → String)
    (hinj : Function.Injective sha256hex) :
    computeBundleHash sha256hex tezInsertionOrderA (.arr []) ≠
      computeBundleHash sha256hex tezInsertionOrderB (.arr []) := by
  intro h
  have hs := hinj h
  revert hs
  decide

/-- Witness for C5 with the identity as the (injective) hash function. -/
theorem computeBundleHash_depends_on_key_order_witness :
    computeBundleHash id tezInsertionOrderA (.arr []) ≠
      computeBundleHash id tezInsertionOrderB (.arr []) :=
  computeBundleHash_depends_on_key_order id (fun _ _ h => h)

/-! ## C6 — round trip and tamper detection -/

/-- The wire-level shape shared by `createBundle`'s result and by
tampered variants of it: the ten fields in the insertion order of the
object literal in `createBundle`. -/
def mkWireBundle (pv bt ss ssid fa : String) (toVal tezV ctxV : JsValue)
    (hash sa : String) : JsValue :=
  .obj [("protocol_version", .str pv), ("bundle_type", .str bt),
        ("sender_server", .str ss), ("sender_server_id", .str ssid),
        ("from", .str fa), ("to", toVal), ("tez", tezV), ("context", ctxV),
        ("bundle_hash", .str hash), ("signed_at", .str sa)]

theorem toJs_eq_mkWireBundle (b : FederationBundle) :
    b.toJs = mkWireBundle b.protocol_version b.bundle_type b.sender_server
      b.sender_server_id b.fromAddr (.arr (b.toAddrs.map JsValue.str))
      b.tez.toJs (.arr (b.context.map CtxItem.toJs)) b.bundle_hash
      b.signed_at := rfl

/-- Tampering with the payload and context of a wire bundle while
keeping the recorded `bundle_hash`. -/
theorem setField_mkWireBundle (pv bt ss ssid fa : String)
    (toVal tezV ctxV tezV2 ctxV2 : JsValue) (hash sa : String) :
    setField (setField (mkWireBundle pv bt ss ssid fa toVal tezV ctxV hash sa)
        "tez" tezV2) "context" ctxV2 =
      mkWireBundle pv bt ss ssid fa toVal tezV2 ctxV2 hash sa := by
  simp [mkWireBundle, setField]

theorem jsStrTruthy_iff (s : String) : jsStrTruthy s = true ↔ s ≠ "" := by
  unfold jsStrTruthy
  constructor
  · intro h heq
    subst heq
    simp at h
  · intro h
    cases hs : s.data with
    | nil =>
      exact absurd (String.ext hs) h
    | cons c cs => simp [hs]

@[simp] theorem jsTruthy_some_str (s : String) :
    jsTruthy (some (.str s)) = jsStrTruthy s := rfl

@[simp] theorem jsTruthy_some_arr (xs : List JsValue) :
    jsTruthy (some (.arr xs)) = true := rfl

@[simp] theorem jsTruthy_some_obj (fs : List (String × JsValue)) :
    jsTruthy (some (.obj fs)) = true := rfl

@[simp] theorem isStringJs_some_str (s : String) :
    isStringJs (some (.str s)) = true := rfl

@[simp] theorem isObjectTypeof_some_obj (fs : List (String × JsValue)) :
    isObjectTypeof (some (.obj fs)) = true := rfl

@[simp] theorem isStrEqJs_some_str (s lit : String) :
    isStrEqJs (some (.str s)) lit = decide (s = lit) := rfl

@[simp] theorem getField_obj (fs : List (String × JsValue)) (k : String) :
    getField (.obj fs) k = (fs.find? (fun f => f.1 = k)).map Prod.snd := rfl

/-- `validateBundle` on a wire bundle whose envelope passes every
structural check reduces to the hash-integrity comparison. -/
theorem validateBundle_mkWireBundle (sha256hex : String → String)
    (pv ss ssid fa : String) (toArr : List JsValue) (tezV : JsValue)
    (ctxArr : List JsValue) (hash sa : String)
    (hss : ss ≠ "") (hssid : ssid ≠ "") (hfa : fa ≠ "") (hto : toArr ≠ [])
    (htezTruthy : jsTruthy (some tezV) = true)
    (htezObj : isObjectTypeof (some tezV) = true)
    (hid : jsTruthy (getField tezV "id") = true)
    (hsurf : jsTruthy (getField tezV "surfaceText") = true)
    (hcreated : jsTruthy (getField tezV "createdAt") = true)
    (hhash : hash ≠ "") :
    validateBundle sha256hex
        (mkWireBundle pv "federation_delivery" ss ssid fa (.arr toArr) tezV
          (.arr ctxArr) hash sa) =
      if hash = computeBundleHash sha256hex tezV (.arr ctxArr) then none
      else some "Bundle hash mismatch — payload may have been tampered with" := by
  have hss' := (jsStrTruthy_iff ss).mpr hss
  have hssid' := (jsStrTruthy_iff ssid).mpr hssid
  have hfa' := (jsStrTruthy_iff fa).mpr hfa
  have hhash' := (jsStrTruthy_iff hash).mpr hhash
  unfold validateBundle
  simp only [mkWireBundle]
  simp [List.find?, htezTruthy, htezObj, hid, hsurf, hcreated,
        hss', hssid', hfa', hhash', hto, List.isEmpty_iff]

/-- A tez payload that is legal for `createBundle`'s parameter type but
has an empty surface text. -/
def tezEmptySurface : TezData :=
  { id := "t1", threadId := none, parentTezId := none, surfaceText := "",
    type := "note", urgency := "normal", actionRequested := none,
    visibility := "dm", createdAt := "2026-02-03T04:05:06.000Z" }

def identSample : ServerIdentity :=
  { serverId := "srv1", publicKey := "pk", privateKeyPem := "sk",
    host := "a.example" }

/-- C6 counterexample: `validateBundle (createBundle ...)` does NOT
always succeed.  A bundle built from a payload with empty `surfaceText`
(legal for `createBundle`, whose parameter type is just `string`) is
rejected by the truthiness check `!tezData.surfaceText` with the
missing-field error — so the round-trip half of the claim fails, and a
field mutated to the empty string yields a missing-field failure rather
than the hash-mismatch integrity error. -/
theorem validateBundle_createBundle_empty_field_fails :
    validateBundle (fun _ => "h")
        ((createBundle (fun _ => "h") "2026-02-03T04:05:06.000Z"
          tezEmptySurface [] "alice@a.example" ["bob@b.example"]
          identSample).toJs) =
      some "Missing required tez fields (id, surfaceText, createdAt)" := by
  decide

/-- C6 (amended): the round trip `validate ∘ build` succeeds whenever the
fields that JavaScript truthiness inspects are nonempty (the identity's
host and serverId, the from address, the recipient list, and the
payload's id / surfaceText / createdAt — `sha256hex` never returning the
empty string stands for SHA-256 hex digests being 64 characters); and
tampering with the payload or the context of such a bundle — any
replacement that still passes the structural checks but changes the
canonical serialization — is caught by the hash-integrity check with its
distinctive mismatch error, for every injective hash function. -/
theorem createBundle_validateBundle_roundtrip_and_tamper :
    (∀ (sha256hex : String → String) (nowIso : String) (t : TezData)
        (c : List CtxItem) (fa : String) (toAddrs : List String)
        (ident : ServerIdentity),
        (∀ x, sha256hex x ≠ "") →
        ident.host ≠ "" → ident.serverId ≠ "" → fa ≠ "" → toAddrs ≠ [] →
        t.id ≠ "" → t.surfaceText ≠ "" → t.createdAt ≠ "" →
        validateBundle sha256hex
          (createBundle sha256hex nowIso t c fa toAddrs ident).toJs = none) ∧
    (∀ (sha256hex : String → String) (nowIso : String) (t : TezData)
        (c : List CtxItem) (fa : String) (toAddrs : List String)
        (ident : ServerIdentity) (tezV : JsValue) (ctxArr : List JsValue),
        Function.Injective sha256hex → (∀ x, sha256hex x ≠ "") →
        ident.host ≠ "" → ident.serverId ≠ "" → fa ≠ "" → toAddrs ≠ [] →
        jsTruthy (some tezV) = true → isObjectTypeof (some tezV) = true →
        jsTruthy (getField tezV "id") = true →
        jsTruthy (getField tezV "surfaceText") = true →
        jsTruthy (getField tezV "createdAt") = true →
        jsonStringify (.obj [("context", .arr ctxArr), ("tez", tezV)]) ≠
          jsonStringify (.obj [("context", .arr (c.map CtxItem.toJs)),
                               ("tez", t.toJs)]) →
        validateBundle sha256hex
            (setField (setField
              (createBundle sha256hex nowIso t c fa toAddrs ident).toJs
              "tez" tezV) "context" (.arr ctxArr)) =
          some "Bundle hash mismatch — payload may have been tampered with") := by
  constructor
  · intro sha256hex nowIso t c fa toAddrs ident hsha hhost hsid hfa hto
      hid hsurf hcr
    rw [toJs_eq_mkWireBundle]
    simp only [createBundle]
    rw [validateBundle_mkWireBundle sha256hex "1.2.4" ident.host
      ident.serverId fa (toAddrs.map JsValue.str) t.toJs (c.map CtxItem.toJs)
      (computeBundleHash sha256hex t.toJs (.arr (c.map CtxItem.toJs))) nowIso
      hhost hsid hfa (by simpa using hto) (jsTruthy_some_obj _)
      (isObjectTypeof_some_obj _)
      (by simp [TezData.toJs, List.find?, (jsStrTruthy_iff t.id).mpr hid])
      (by simp [TezData.toJs, List.find?, (jsStrTruthy_iff t.surfaceText).mpr hsurf])
      (by simp [TezData.toJs, List.find?, (jsStrTruthy_iff t.createdAt).mpr hcr])
      (hsha _)]
    simp
  · intro sha256hex nowIso t c fa toAddrs ident tezV ctxArr hinj hsha hhost
      hsid hfa hto htezTruthy htezObj hid hsurf hcr hser
    rw [toJs_eq_mkWireBundle]
    simp only [createBundle]
    rw [setField_mkWireBundle]
    rw [validateBundle_mkWireBundle sha256hex "1.2.4" ident.host
      ident.serverId fa (toAddrs.map JsValue.str) tezV ctxArr
      (computeBundleHash sha256hex t.toJs (.arr (c.map CtxItem.toJs))) nowIso
      hhost hsid hfa (by simpa using hto) htezTruthy htezObj hid hsurf hcr
      (hsha _)]
    rw [if_neg]
    intro heq
    exact hser (hinj heq.symm)

/-- An injective stand-in for SHA-256 hex that never returns the empty
string: it prepends a marker character. -/
def shaMark (s : String) : String := String.mk ('#' :: s.data)

theorem shaMark_injective : Function.Injective shaMark := by
  intro a b h
  have hd := congrArg String.data h
  simp [shaMark] at hd
  exact String.ext hd

theorem shaMark_ne_empty : ∀ x, shaMark x ≠ "" := by
  intro x h
  have hd := congrArg String.data h
  simp [shaMark] at hd

/-- A well-formed sample payload for the C6 witness. -/
def tezSample : TezData :=
  { id := "t1", threadId := none, parentTezId := none,
    surfaceText := "hello", type := "note", urgency := "normal",
    actionRequested := none, visibility := "dm",
    createdAt := "2026-02-03T04:05:06.000Z" }

/-- The same payload with one field changed after hashing. -/
def tezSampleMutated : TezData := { tezSample with surfaceText := "evil" }

/-- Witness for C6 (amended) at concrete inputs: the round trip
validates, and mutating `surfaceText` after hashing produces the
hash-mismatch error. -/
theorem createBundle_validateBundle_roundtrip_and_tamper_witness :
    validateBundle shaMark
        (createBundle shaMark "2026-02-03T04:05:06.000Z" tezSample []
          "alice@a.example" ["bob@b.example"] identSample).toJs = none ∧
    validateBundle shaMark
        (setField (setField
          (createBundle shaMark "2026-02-03T04:05:06.000Z" tezSample []
            "alice@a.example" ["bob@b.example"] identSample).toJs
          "tez" tezSampleMutated.toJs) "context" (.arr [])) =
      some "Bundle hash mismatch — payload may have been tampered with" :=
  ⟨createBundle_validateBundle_roundtrip_and_tamper.1 shaMark
    "2026-02-03T04:05:06.000Z" tezSample [] "alice@a.example"
    ["bob@b.example"] identSample shaMark_ne_empty (by decide) (by decide)
    (by decide) (by decide) (by decide) (by decide) (by decide),
   createBundle_validateBundle_roundtrip_and_tamper.2 shaMark
    "2026-02-03T04:05:06.000Z" tezSample [] "alice@a.example"
    ["bob@b.example"] identSample tezSampleMutated.toJs []
    shaMark_injective shaMark_ne_empty (by decide) (by decide) (by decide)
    (by decide) (by decide) (by decide) (by decide) (by decide) (by decide)
    (by decide)⟩

/-! ## Context sanitization — `sanitize.ts` -/

/-- `ZERO_WIDTH_CHARS = /[​‌‍﻿⁠]/g`. -/
def isZeroWidthChar (c : Char) : Bool :=
  c.toNat = 0x200B || c.toNat = 0x200C || c.toNat = 0x200D ||
  c.toNat = 0xFEFF || c.toNat = 0x2060

/-- `BIDI_OVERRIDES = /[‪-‮⁦-⁩]/g`. -/
def isBidiOverrideChar (c : Char) : Bool :=
  (decide (0x202A ≤ c.toNat) && decide (c.toNat ≤ 0x202E)) ||
  (decide (0x2066 ≤ c.toNat) && decide (c.toNat ≤ 0x2069))

/-- `CONTROL_CHARS = /[\x00-\x08\x0B\x0C\x0E-\x1F\x7F]/g` — control
characters except tab (09), newline (0A) and carriage return (0D). -/
def isControlCharStripped (c : Char) : Bool :=
  decide (c.toNat ≤ 0x08) || c.toNat = 0x0B || c.toNat = 0x0C ||
  (decide (0x0E ≤ c.toNat) && decide (c.toNat ≤ 0x1F)) || c.toNat = 0x7F

/-- `sanitizeText`: NFC normalization (the normalizer is the parameter
`nfc`), then the three global-replace passes that delete zero-width
characters, bidi overrides, and stripped control characters. -/
def sanitizeText (nfc : String → String) (input : String) : String :=
  let cleaned := nfc input
  let cleaned := String.mk (cleaned.data.filter (fun c => !isZeroWidthChar c))
  let cleaned := String.mk (cleaned.data.filter (fun c => !isBidiOverrideChar c))
  let cleaned := String.mk (cleaned.data.filter (fun c => !isControlCharStripped c))
  cleaned

/-- `ALLOWED_MIME_TYPES` (Issue #15). -/
def ALLOWED_MIME_TYPES : List String :=
  ["text/plain", "text/markdown", "text/html", "text/csv",
   "application/json", "application/xml", "application/pdf",
   "image/png", "image/jpeg", "image/gif", "image/webp", "image/svg+xml",
   "audio/mpeg", "audio/ogg", "audio/wav", "audio/webm",
   "video/mp4", "video/webm"]

/-- Max content size per context item (256KB). -/
def MAX_CONTEXT_CONTENT_LENGTH : Nat := 256 * 1024

/-- `sanitizeContextItem`: throws (models as `Except.error`) on oversized
content; sanitizes the content text; maps a truthy, non-allowlisted MIME
type to `text/plain` (a falsy one — `null` or the empty string — is kept
as is, because `if (mimeType && ...)` skips it). -/
def sanitizeContextItem (nfc : String → String) (item : CtxItem) :
    Except String (String × Option String) :=
  if utf16Length item.content > MAX_CONTEXT_CONTENT_LENGTH then
    .error "Context content exceeds maximum length (262144 bytes)"
  else
    let content := sanitizeText nfc item.content
    let mimeType : Option String := match item.mimeType with
      | none => none
      | some m =>
        if jsStrTruthy m && !ALLOWED_MIME_TYPES.contains m then
          some "text/plain"
        else some m
    .ok (content, mimeType)

/-! ## Trust Registry rows — `schema.ts` `federated_servers` -/

structure ServerRow where
  host : String
  serverId : String
  publicKey : String
  displayName : Option String
  trustLevel : String
  protocolVersion : Option String
  lastSeenAt : Option Nat
  firstSeenAt : Nat
  metadata : Option String
deriving Repr, DecidableEq

/-! ## Discovery Cache — `discovery.ts`

DNS resolution (`dns.promises.resolve4`) and the HTTPS fetch are
parameters.  `DnsResult.otherFailure` covers every resolver error other
than `ENOTFOUND`; `validateHost` swallows those, exactly as the source's
`catch` block does.  The returned `List String` of each discovery
function is its trace of attempted HTTPS requests (hosts fetched). -/

inductive DnsResult where
  | resolved (addrs : List String)
  | notFound
  | otherFailure
deriving Repr, DecidableEq

/-- `split(sep)` for a single-character separator, over the character
list (structural, so concrete instances evaluate in the kernel; agrees
with `String.prototype.split` for one-character separators). -/
def splitChar (sep : Char) : List Char → List (List Char)
  | [] => [[]]
  | c :: cs =>
    match splitChar sep cs with
    | [] => [[]]
    | g :: gs => if c = sep then [] :: g :: gs else (c :: g) :: gs

/-- `startsWith` over character lists. -/
def startsWithList : List Char → List Char → Bool
  | _, [] => true
  | [], _ :: _ => false
  | c :: cs, d :: ds => c = d && startsWithList cs ds

/-- `endsWith` over character lists. -/
def endsWithList (l suffix : List Char) : Bool :=
  startsWithList l.reverse suffix.reverse

/-- `Number(part)` for the dot-separated segments: the decimal value of
an all-digit segment (the empty segment is 0, as in JavaScript), `none`
for JavaScript `NaN` — every `===` / `>=` / `<=` comparison against a
number is false for `none`.  At both call sites of `isPrivateIp` the
segments are all-digit strings (enforced by the `^\d+\.\d+\.\d+\.\d+$`
test and by the shape of resolver output), where this agrees with
JavaScript `Number`. -/
def jsNumberParse (s : List Char) : Option Nat :=
  if s.all Char.isDigit then
    some (s.foldl (fun n c => n * 10 + (c.toNat - 48)) 0)
  else none

/-- `isPrivateIp` (Issue #6): the private / loopback / link-local /
reserved IPv4 ranges. -/
def isPrivateIp (ip : String) : Bool :=
  let parts := (splitChar '.' ip.data).map jsNumberParse
  if parts.length ≠ 4 then false
  else
    let a := parts.getD 0 none
    let b := parts.getD 1 none
    if a == some 10 then true
    else if a == some 172 &&
        (match b with
         | some bv => decide (16 ≤ bv) && decide (bv ≤ 31)
         | none => false) then true
    else if a == some 192 && b == some 168 then true
    else if a == some 127 then true
    else if a == some 169 && b == some 254 then true
    else if a == some 0 then true
    else false

/-- The `^\d+\.\d+\.\d+\.\d+$` test: four nonempty all-digit segments. -/
def matchesIpv4Shape (host : String) : Bool :=
  let parts := splitChar '.' host.data
  parts.length == 4 &&
    parts.all (fun p => !p.isEmpty && p.all Char.isDigit)

/-- `isBlockedHost`: local-only names, local-only suffixes, and private
IPv4 literals. -/
def isBlockedHost (host : String) : Bool :=
  let lower := host.data.map Char.toLower
  if lower == "localhost".data || lower == "::1".data then true
  else if endsWithList lower ".local".data ||
      endsWithList lower ".internal".data then true
  else if matchesIpv4Shape host then isPrivateIp host
  else false

/-- `validateHost`: reject a blocked literal, then resolve the A-records
and reject if any resolves to a private IP.  `ENOTFOUND` becomes a
does-not-resolve error; any other resolver error is swallowed by the
`catch` and discovery proceeds. -/
def validateHost (resolve4 : String → DnsResult) (host : String) :
    Except String Unit :=
  if isBlockedHost host then
    .error ("SSRF blocked: " ++ host ++ " is a private/reserved address")
  else
    match resolve4 host with
    | .resolved addrs =>
      match addrs.find? isPrivateIp with
      | some addr =>
        .error ("SSRF blocked: " ++ host ++ " resolves to private IP " ++ addr)
      | none => .ok ()
    | .notFound => .error ("Discovery failed: " ++ host ++ " does not resolve")
    | .otherFailure => .ok ()

structure RemoteServerInfo where
  host : String
  serverId : String
  publicKey : String
  federationInbox : String
  protocolVersion : String
  profiles : List String
  cachedAt : Nat
deriving Repr, DecidableEq

/-- Outcome of the HTTPS GET of `/.well-known/tezit.json`:
`ok`/`status` from the response, `body` the parsed JSON. -/
structure WellKnownResponse where
  ok : Bool
  status : Nat
  body : JsValue

/-- String content of a duck-typed field (the relay stores the raw
value; our theorems never inspect these fields, so the JavaScript string
coercion is used for non-string values). -/
def strOfJs : Option JsValue → String
  | some (.str s) => s
  | v => jsDisplay v

/-- `data.profiles || []` stored as a string list. -/
def strListOfJs : Option JsValue → List String
  | some (.arr xs) => xs.map (fun x => strOfJs (some x))
  | _ => []

/-- `fetchWellKnown`: SSRF validation first, then the HTTPS fetch
(`httpGet host = none` is a network error / timeout), then the
required-field validation.  The second component is the list of HTTPS
requests attempted. -/
def fetchWellKnown (resolve4 : String → DnsResult)
    (httpGet : String → Option WellKnownResponse) (nowMs : Nat)
    (host : String) : Except String RemoteServerInfo × List String :=
  match validateHost resolve4 host with
  | .error e => (.error e, [])
  | .ok _ =>
    match httpGet host with
    | none => (.error ("Discovery failed for " ++ host ++ ": network error"),
               [host])
    | some res =>
      if !res.ok then
        (.error ("Discovery failed for " ++ host ++ ": HTTP " ++
          toString res.status), [host])
      else
        let data := res.body
        let fedInbox := match getField data "federation" with
          | some f => getField f "inbox"
          | none => none
        if !(jsTruthy (getField data "server_id") &&
             jsTruthy (getField data "public_key") && jsTruthy fedInbox) then
          (.error ("Discovery failed for " ++ host ++
            ": missing required fields (server_id, public_key, federation.inbox)"),
           [host])
        else
          (.ok { host := host,
                 serverId := strOfJs (getField data "server_id"),
                 publicKey := strOfJs (getField data "public_key"),
                 federationInbox := strOfJs fedInbox,
                 protocolVersion :=
                   if jsTruthy (getField data "protocol_version") then
                     strOfJs (getField data "protocol_version")
                   else "1.0.0",
                 profiles := strListOfJs (getField data "profiles"),
                 cachedAt := nowMs }, [host])

/-- `loadFromDb`: the `federated_servers` fallback.  A `JSON.parse`
failure on the metadata column is caught and turns the whole lookup into
`none`. -/
def loadFromDb (rows : List ServerRow) (parseMeta : String → Option JsValue)
    (host : String) : Option RemoteServerInfo :=
  match rows.find? (fun r => r.host == host) with
  | none => none
  | some row =>
    let build : JsValue → RemoteServerInfo := fun md =>
      { host := row.host,
        serverId := row.serverId,
        publicKey := row.publicKey,
        federationInbox :=
          if jsTruthy (getField md "federationInbox") then
            strOfJs (getField md "federationInbox")
          else "/federation/inbox",
        protocolVersion := match row.protocolVersion with
          | some pv => if jsStrTruthy pv then pv else "1.0.0"
          | none => "1.0.0",
        profiles := if jsTruthy (getField md "profiles") then
            strListOfJs (getField md "profiles")
          else [],
        cachedAt := row.lastSeenAt.getD row.firstSeenAt }
    match row.metadata with
    | some m =>
      match parseMeta m with
      | none => none
      | some md => some (build md)
    | none => some (build (.obj []))

structure CacheEntry where
  info : RemoteServerInfo
  expiresAt : Nat
deriving Repr, DecidableEq

def CACHE_TTL_MS : Nat := 60 * 60 * 1000

/-- `Map.set`: replace an existing entry for the host or add one. -/
def setCache (cache : List (String × CacheEntry)) (host : String)
    (e : CacheEntry) : List (String × CacheEntry) :=
  if cache.any (fun p => p.1 == host) then
    cache.map (fun p => if p.1 == host then (host, e) else p)
  else cache ++ [(host, e)]

/-- The in-memory cache lookup of `discoverServer`: a hit only while
`expiresAt` is still in the future. -/
def cacheHit (cache : List (String × CacheEntry)) (nowMs : Nat)
    (host : String) : Option RemoteServerInfo :=
  match cache.find? (fun p => p.1 == host) with
  | some (_, entry) => if nowMs < entry.expiresAt then some entry.info else none
  | none => none

/-- `discoverServer`: fresh in-memory cache entry first, then the
network, then the DB fallback, else the network error propagates.
Returns (result, updated cache, HTTPS requests attempted). -/
def discoverServer (resolve4 : String → DnsResult)
    (httpGet : String → Option WellKnownResponse) (dbRows : List ServerRow)
    (parseMeta : String → Option JsValue) (cache : List (String × CacheEntry))
    (nowMs : Nat) (host : String) :
    Except String RemoteServerInfo × List (String × CacheEntry) × List String :=
  match cacheHit cache nowMs host with
  | some info => (.ok info, cache, [])
  | none =>
    let (res, reqs) := fetchWellKnown resolve4 httpGet nowMs host
    match res with
    | .ok info =>
      (.ok info, setCache cache host ⟨info, nowMs + CACHE_TTL_MS⟩, reqs)
    | .error e =>
      match loadFromDb dbRows parseMeta host with
      | some dbInfo =>
        (.ok dbInfo, setCache cache host ⟨dbInfo, nowMs + CACHE_TTL_MS⟩, reqs)
      | none => (.error e, cache, reqs)

theorem startsWithList_append (p r : List Char) :
    startsWithList (p ++ r) p = true := by
  induction p with
  | nil => cases r <;> rfl
  | cons c cs ih => simp [startsWithList, ih]

/-- Every `validateHost` rejection of a blocked host — a blocked literal
or a host with a private A-record — is an error whose message starts with
`SSRF blocked`. -/
theorem validateHost_ssrf (resolve4 : String → DnsResult) (host : String)
    (hblocked : isBlockedHost host = true ∨
      ∃ addrs, resolve4 host = .resolved addrs ∧ addrs.any isPrivateIp = true) :
    ∃ e, validateHost resolve4 host = .error e ∧
      startsWithList e.data "SSRF blocked".data = true := by
  unfold validateHost
  by_cases hb : isBlockedHost host = true
  · rw [if_pos hb]
    refine ⟨_, rfl, ?_⟩
    have : ("SSRF blocked: " ++ host ++ " is a private/reserved address").data =
        "SSRF blocked".data ++
          (": " ++ host ++ " is a private/reserved address").data := by
      simp
    rw [this]
    exact startsWithList_append _ _
  · rcases hblocked with hblocked | ⟨addrs, hres, hany⟩
    · exact absurd hblocked hb
    · rw [if_neg hb, hres]
      obtain ⟨a, hamem, ha⟩ := List.any_eq_true.mp hany
      have hf : (addrs.find? isPrivateIp).isSome := by
        rw [List.find?_isSome]
        exact ⟨a, hamem, ha⟩
      obtain ⟨b, hb'⟩ := Option.isSome_iff_exists.mp hf
      simp only [hb']
      refine ⟨_, rfl, ?_⟩
      have : ("SSRF blocked: " ++ host ++ " resolves to private IP " ++ b).data =
          "SSRF blocked".data ++
            (": " ++ host ++ " resolves to private IP " ++ b).data := by
        simp
      rw [this]
      exact startsWithList_append _ _

/-- C1 (amended): for a host that is a private/loopback/link-local IPv4
literal or local-only hostname, or whose A-records resolve to a private
address, `discoverServer` never attempts an HTTPS request to it (the
request trace is empty in every state), and the well-known fetch path
fails with an `SSRF blocked` error before any request — so discovery as
a whole fails with that SSRF error unless a still-fresh cache entry or a
Trust Registry (DB) record for the host exists, in which case that
stored record is returned without any HTTPS request. -/
theorem discoverServer_ssrf_guard (resolve4 : String → DnsResult)
    (httpGet : String → Option WellKnownResponse) (dbRows : List ServerRow)
    (parseMeta : String → Option JsValue) (cache : List (String × CacheEntry))
    (nowMs : Nat) (host : String)
    (hblocked : isBlockedHost host = true ∨
      ∃ addrs, resolve4 host = .resolved addrs ∧ addrs.any isPrivateIp = true) :
    (discoverServer resolve4 httpGet dbRows parseMeta cache nowMs host).2.2
        = [] ∧
    (cacheHit cache nowMs host = none →
      loadFromDb dbRows parseMeta host = none →
      ∃ e, (discoverServer resolve4 httpGet dbRows parseMeta cache nowMs
              host).1 = .error e ∧
        startsWithList e.data "SSRF blocked".data = true) := by
  obtain ⟨e, hv, hpre⟩ := validateHost_ssrf resolve4 host hblocked
  have hfetch : fetchWellKnown resolve4 httpGet nowMs host = (.error e, []) := by
    unfold fetchWellKnown
    rw [hv]
  constructor
  · unfold discoverServer
    cases hc : cacheHit cache nowMs host with
    | some info => rfl
    | none =>
      simp only [hfetch]
      cases hdb : loadFromDb dbRows parseMeta host <;> simp
  · intro hmiss hdb
    unfold discoverServer
    rw [hmiss]
    simp only [hfetch, hdb]
    exact ⟨e, rfl, hpre⟩

/-- Witness for C1 (amended): a hostname whose only A-record is
`10.0.0.5`, an empty cache and an empty Trust Registry — no request is
attempted and discovery fails with an `SSRF blocked` error. -/
theorem discoverServer_ssrf_guard_witness :
    (discoverServer (fun _ => DnsResult.resolved ["10.0.0.5"]) (fun _ => none)
        [] (fun _ => none) [] 0 "evil.example").2.2 = [] ∧
    (∃ e, (discoverServer (fun _ => DnsResult.resolved ["10.0.0.5"])
        (fun _ => none) [] (fun _ => none) [] 0 "evil.example").1 =
          .error e ∧
      startsWithList e.data "SSRF blocked".data = true) :=
  ⟨(discoverServer_ssrf_guard (fun _ => DnsResult.resolved ["10.0.0.5"])
      (fun _ => none) [] (fun _ => none) [] 0 "evil.example"
      (Or.inr ⟨["10.0.0.5"], rfl, by decide⟩)).1,
   (discoverServer_ssrf_guard (fun _ => DnsResult.resolved ["10.0.0.5"])
      (fun _ => none) [] (fun _ => none) [] 0 "evil.example"
      (Or.inr ⟨["10.0.0.5"], rfl, by decide⟩)).2 rfl rfl⟩

/-- A Trust Registry row for `localhost`, as the `/federation/verify`
handshake can create (it performs no SSRF validation on the host). -/
def dbRowLocalhost : ServerRow :=
  { host := "localhost", serverId := "srv9", publicKey := "pk9",
    displayName := none, trustLevel := "trusted",
    protocolVersion := some "1.2.4", lastSeenAt := some 1000,
    firstSeenAt := 500, metadata := none }

/-- C1 counterexample: when the Trust Registry holds a record for
`localhost` (a blocked local-only host), `discoverServer` does not fail
with an SSRF error — the SSRF rejection of the fetch path is caught and
the DB fallback returns the stored record, so discovery succeeds.  (No
HTTPS request is attempted even then, which is what the amended claim
keeps.) -/
theorem discoverServer_blocked_host_succeeds_via_db :
    (discoverServer (fun _ => DnsResult.notFound) (fun _ => none)
        [dbRowLocalhost] (fun _ => none) [] 2000 "localhost").1 =
      Except.ok
        ({ host := "localhost", serverId := "srv9", publicKey := "pk9",
           federationInbox := "/federation/inbox",
           protocolVersion := "1.2.4", profiles := [],
           cachedAt := 1000 } : RemoteServerInfo) := rfl

/-! ## Inbound Acceptance Pipeline — `POST /federation/inbox`
(newer revision: recipients are validated before any insert)

The database tables touched by the pipeline, as association lists, and
the request as the handler sees it.  `sigValid` is the outcome of
`verifyRequest` (§ Signature Codec) for this request against the
sender's stored public key — the crypto is abstracted at this interface,
as the pipeline only branches on the boolean. -/

structure ContactRow where
  id : String
  tezAddress : String
deriving Repr, DecidableEq

structure TezRow where
  id : String
  teamId : Option String
  conversationId : Option String
  threadId : String
  parentTezId : Option String
  surfaceText : String
  type : String
  urgency : String
  actionRequested : Option String
  senderUserId : String
  visibility : String
  status : String
  createdAt : String
  updatedAt : String
deriving Repr, DecidableEq

structure TezContextRow where
  id : String
  tezId : String
  layer : String
  content : String
  mimeType : Option String
  confidence : Option Int
  source : Option String
  derivedFrom : Option String
  createdAt : String
  createdBy : String
deriving Repr, DecidableEq

structure TezRecipientRow where
  tezId : String
  userId : String
  deliveredAt : String
  readAt : Option String
  acknowledgedAt : Option String
deriving Repr, DecidableEq

structure FederatedTezRow where
  id : String
  localTezId : String
  remoteTezId : String
  remoteHost : String
  direction : String
  bundleHash : Option String
  federatedAt : String
deriving Repr, DecidableEq

structure DbState where
  contacts : List ContactRow
  tezRows : List TezRow
  tezContextRows : List TezContextRow
  tezRecipientRows : List TezRecipientRow
  federatedTezRows : List FederatedTezRow
  servers : List ServerRow
deriving Repr, DecidableEq

structure RelayConfig where
  federationEnabled : Bool
  federationMode : String
  maxTezSizeBytes : Nat
  relayHost : String
deriving Repr, DecidableEq

structure InboxRequest where
  contentLength : Nat
  signature : Option String
  signatureInput : Option String
  digest : Option String
  date : Option String
  host : Option String
  nonce : Option String
  body : FederationBundle
  sigValid : Bool
deriving Repr, DecidableEq

structure InboxResponse where
  status : Nat
  code : Option String
  notFound : List String
  localTezIds : List String
deriving Repr, DecidableEq

/-- An error response; the human-readable message accompanying each code
is not tracked, only the machine-readable code. -/
def errResp (status : Nat) (code : String) : InboxResponse :=
  { status := status, code := some code, notFound := [], localTezIds := [] }

/-- The `keyId="([^"]+)"` pattern of `extractKeyId`. -/
def keyIdPattern : List Char := "keyId=\"".data

/-- Try the pattern at the head of the list: after `keyId="`, a maximal
nonempty run of non-quote characters followed by a closing quote. -/
def matchKeyIdAt (l : List Char) : Option (List Char) :=
  if startsWithList l keyIdPattern then
    let rest := l.drop keyIdPattern.length
    let v := rest.takeWhile (fun c => c ≠ '"')
    if decide (v.length < rest.length) && !v.isEmpty then some v else none
  else none

/-- The regex engine's left-to-right scan for the first position where
the pattern matches. -/
def searchKeyId : List Char → Option (List Char)
  | [] => none
  | c :: cs =>
    match matchKeyIdAt (c :: cs) with
    | some v => some v
    | none => searchKeyId cs

/-- `extractKeyId(signatureInput)`: first match of `keyId="([^"]+)"`. -/
def extractKeyId (signatureInput : String) : Option String :=
  (searchKeyId signatureInput.data).map String.mk

/-- `addr.slice(addr.lastIndexOf("@") + 1)` when an `@` exists. -/
def hostPartAfterAt (addr : String) : Option String :=
  match splitChar '@' addr.data with
  | [] => none
  | [_] => none
  | parts => some (String.mk (parts.getLastD []))

/-- The recipient-resolution loop (Issue #12): look up each local
address among the contacts, partitioning into resolved
(address, contact id) pairs and not-found addresses, in request order. -/
def resolveRecipients (contacts : List ContactRow) :
    List String → List (String × String) × List String
  | [] => ([], [])
  | addr :: rest =>
    let (vs, nf) := resolveRecipients contacts rest
    match contacts.find? (fun c => c.tezAddress == addr) with
    | none => (vs, addr :: nf)
    | some c => ((addr, c.id) :: vs, nf)

/-- The context-insertion loop: each item is sanitized and inserted in
order; a `sanitizeContextItem` throw stops the loop, leaving the rows
inserted so far (the caught error is the second component). -/
def processCtxItems (nfc : String → String) (tezId now createdBy : String)
    (ctxId : Nat → String) :
    List CtxItem → Nat → List TezContextRow × Option String
  | [], _ => ([], none)
  | item :: rest, i =>
    match sanitizeContextItem nfc item with
    | .error e => ([], some e)
    | .ok (content, mimeType) =>
      let row : TezContextRow :=
        { id := ctxId i, tezId := tezId, layer := item.layer,
          content := content, mimeType := mimeType,
          confidence := item.confidence, source := item.source,
          derivedFrom := none, createdAt := now, createdBy := createdBy }
      let (rows, err) := processCtxItems nfc tezId now createdBy ctxId rest (i + 1)
      (row :: rows, err)

/-- The sanitized tez row the inbox handler inserts (Issue #5). -/
def inboundTezRow (nfc : String → String) (now localTezId : String)
    (b : FederationBundle) : TezRow :=
  { id := localTezId, teamId := none, conversationId := none,
    threadId := localTezId, parentTezId := none,
    surfaceText := sanitizeText nfc b.tez.surfaceText,
    type := if jsStrTruthy b.tez.type then b.tez.type else "note",
    urgency := if jsStrTruthy b.tez.urgency then b.tez.urgency else "normal",
    actionRequested := match b.tez.actionRequested with
      | some a => if jsStrTruthy a then some (sanitizeText nfc a) else none
      | none => none,
    senderUserId := b.fromAddr, visibility := "dm", status := "active",
    createdAt := now, updatedAt := now }

/-- The persistence tail of the inbox handler (everything after the
recipient check): tez row, context rows (a sanitization throw mid-loop
is caught by the route's `catch`, leaving the rows inserted so far and
answering 500), recipient rows, the inbound `federated_tez` record, the
sender's `lastSeenAt` refresh, then 207/200. -/
def persistInbound (nfc : String → String) (now : String) (nowMs : Nat)
    (localTezId : String) (ctxId : Nat → String) (fedId : String)
    (s : DbState) (b : FederationBundle) (sender : ServerRow)
    (validRecipients : List (String × String)) (notFound : List String) :
    InboxResponse × DbState :=
  let tezRow : TezRow := inboundTezRow nfc now localTezId b
  let s1 := { s with tezRows := s.tezRows ++ [tezRow] }
  let (ctxRows, ctxErr) :=
    processCtxItems nfc localTezId now b.fromAddr ctxId b.context 0
  let s2 := { s1 with tezContextRows := s1.tezContextRows ++ ctxRows }
  match ctxErr with
  | some _ => (errResp 500 "INTERNAL_ERROR", s2)
  | none =>
    let recipRows := validRecipients.map (fun vr =>
      ({ tezId := localTezId, userId := vr.2, deliveredAt := now,
         readAt := none, acknowledgedAt := none } : TezRecipientRow))
    let s3 := { s2 with tezRecipientRows := s2.tezRecipientRows ++ recipRows }
    let fedRow : FederatedTezRow :=
      { id := fedId, localTezId := localTezId, remoteTezId := b.tez.id,
        remoteHost := b.sender_server, direction := "inbound",
        bundleHash := some b.bundle_hash, federatedAt := now }
    let s4 := { s3 with federatedTezRows := s3.federatedTezRows ++ [fedRow] }
    let s5 := { s4 with servers := s4.servers.map (fun sv =>
        if sv.host == sender.host then { sv with lastSeenAt := some nowMs }
        else sv) }
    if !notFound.isEmpty then
      ({ status := 207, code := none, notFound := notFound,
         localTezIds := [localTezId] }, s5)
    else
      ({ status := 200, code := none, notFound := [],
         localTezIds := [localTezId] }, s5)

/-- Step 5 of the pipeline: the addresses of `bundle.to` whose host
segment (after the last `@`) matches this node's host. -/
def localRecipientsOf (identityHost : String) (b : FederationBundle) :
    List String :=
  b.toAddrs.filter (fun addr =>
    match hostPartAfterAt addr with
    | some h => h == identityHost
    | none => false)

/-- The part of the handler after the authentication/validation gates:
replay check, local-recipient filter, recipient resolution, then
persistence. -/
def inboxTail (identityHost : String) (nfc : String → String) (now : String)
    (nowMs : Nat) (localTezId : String) (ctxId : Nat → String)
    (fedId : String) (s : DbState) (b : FederationBundle)
    (sender : ServerRow) : InboxResponse × DbState :=
  if jsStrTruthy b.bundle_hash &&
      s.federatedTezRows.any
        (fun ft => ft.bundleHash == some b.bundle_hash) then
    (errResp 409 "DUPLICATE_BUNDLE", s)
  else
    let localRecipients := localRecipientsOf identityHost b
    if localRecipients.isEmpty then
      (errResp 422 "NO_LOCAL_RECIPIENTS", s)
    else
      let (validRecipients, notFound) :=
        resolveRecipients s.contacts localRecipients
      if validRecipients.isEmpty then
        ({ status := 422, code := some "RECIPIENTS_NOT_FOUND",
           notFound := notFound, localTezIds := [] }, s)
      else
        persistInbound nfc now nowMs localTezId ctxId fedId s b
          sender validRecipients notFound

/-- The ordered checks of the inbox handler (newer revision), from the
federation-enabled gate to recipient resolution, short-circuiting on the
first failure with that failure's status and code. -/
def inboxStep (cfg : RelayConfig) (identityHost : String)
    (sha256hex : String → String) (nfc : String → String) (now : String)
    (nowMs : Nat) (localTezId : String) (ctxId : Nat → String)
    (fedId : String) (s : DbState) (r : InboxRequest) :
    InboxResponse × DbState :=
  if !cfg.federationEnabled then (errResp 404 "FEDERATION_DISABLED", s)
  else if r.contentLength > cfg.maxTezSizeBytes then
    (errResp 413 "BUNDLE_TOO_LARGE", s)
  else if !(jsTruthyOptStr r.signature && jsTruthyOptStr r.signatureInput &&
            jsTruthyOptStr r.digest && jsTruthyOptStr r.date) then
    (errResp 401 "MISSING_SIGNATURE", s)
  else
    match extractKeyId (r.signatureInput.getD "") with
    | none => (errResp 401 "INVALID_SIGNATURE", s)
    | some keyId =>
      match s.servers.find? (fun sv => sv.serverId == keyId) with
      | none => (errResp 403 "UNKNOWN_SERVER", s)
      | some sender =>
        if sender.trustLevel == "blocked" then
          (errResp 403 "SERVER_BLOCKED", s)
        else if cfg.federationMode == "allowlist" &&
            sender.trustLevel != "trusted" then
          (errResp 403 "SERVER_NOT_TRUSTED", s)
        else if !r.sigValid then (errResp 401 "INVALID_SIGNATURE", s)
        else
          match validateBundle sha256hex r.body.toJs with
          | some _ => (errResp 422 "INVALID_BUNDLE", s)
          | none =>
            inboxTail identityHost nfc now nowMs localTezId ctxId fedId s
              r.body sender

/-- The request passes every check of the inbound pipeline that precedes
the replay check (steps 1–6 of the pipeline), with `sender` the Trust
Registry row found for the claimed key id. -/
def passesPreReplay (cfg : RelayConfig) (sha256hex : String → String)
    (s : DbState) (r : InboxRequest) (sender : ServerRow) : Prop :=
  cfg.federationEnabled = true ∧
  r.contentLength ≤ cfg.maxTezSizeBytes ∧
  jsTruthyOptStr r.signature = true ∧
  jsTruthyOptStr r.signatureInput = true ∧
  jsTruthyOptStr r.digest = true ∧
  jsTruthyOptStr r.date = true ∧
  (∃ keyId, extractKeyId (r.signatureInput.getD "") = some keyId ∧
    s.servers.find? (fun sv => sv.serverId == keyId) = some sender) ∧
  sender.trustLevel ≠ "blocked" ∧
  (cfg.federationMode = "allowlist" → sender.trustLevel = "trusted") ∧
  r.sigValid = true ∧
  validateBundle sha256hex r.body.toJs = none

/-- Under `passesPreReplay` the handler reduces to its tail. -/
theorem inboxStep_eq_tail (cfg : RelayConfig) (identityHost : String)
    (sha256hex nfc : String → String) (now : String) (nowMs : Nat)
    (localTezId : String) (ctxId : Nat → String) (fedId : String)
    (s : DbState) (r : InboxRequest) (sender : ServerRow)
    (h : passesPreReplay cfg sha256hex s r sender) :
    inboxStep cfg identityHost sha256hex nfc now nowMs localTezId ctxId
        fedId s r =
      inboxTail identityHost nfc now nowMs localTezId ctxId fedId s
        r.body sender := by
  obtain ⟨h1, h2, h3, h4, h5, h6, ⟨keyId, hk, hfind⟩, h8, h9, h10, h11⟩ := h
  unfold inboxStep
  rw [h1]
  rw [if_neg (by simp)]
  rw [if_neg (by simp [Nat.not_lt.mpr h2])]
  rw [if_neg (by simp [h3, h4, h5, h6])]
  simp only [hk]
  simp only [hfind]
  rw [if_neg (by simp [beq_eq_false_iff_ne.mpr h8])]
  have hmode : (cfg.federationMode == "allowlist" &&
      sender.trustLevel != "trusted") = false := by
    by_cases hm : cfg.federationMode = "allowlist"
    · simp [hm, h9 hm]
    · simp [beq_eq_false_iff_ne.mpr hm]
  rw [if_neg (by simp [hmode])]
  rw [if_neg (by simp [h10])]
  simp only [h11]

theorem getField_wire_to (pv bt ss ssid fa : String) (toVal tezV ctxV : JsValue)
    (hash sa : String) :
    getField (mkWireBundle pv bt ss ssid fa toVal tezV ctxV hash sa) "to" =
      some toVal := rfl

theorem getField_wire_tez (pv bt ss ssid fa : String) (toVal tezV ctxV : JsValue)
    (hash sa : String) :
    getField (mkWireBundle pv bt ss ssid fa toVal tezV ctxV hash sa) "tez" =
      some tezV := rfl

theorem getField_wire_context (pv bt ss ssid fa : String)
    (toVal tezV ctxV : JsValue) (hash sa : String) :
    getField (mkWireBundle pv bt ss ssid fa toVal tezV ctxV hash sa)
      "context" = some ctxV := rfl

theorem getField_wire_bundle_hash (pv bt ss ssid fa : String)
    (toVal tezV ctxV : JsValue) (hash sa : String) :
    getField (mkWireBundle pv bt ss ssid fa toVal tezV ctxV hash sa)
      "bundle_hash" = some (.str hash) := rfl

/-- A bundle that validates has a truthy (nonempty) `bundle_hash` —
`validateBundle` checks `!b.bundle_hash` before the hash comparison. -/
theorem validateBundle_none_hash_truthy (sha256hex : String → String)
    (b : FederationBundle) (hv : validateBundle sha256hex b.toJs = none) :
    jsStrTruthy b.bundle_hash = true := by
  by_contra hcon
  rw [Bool.not_eq_true] at hcon
  rw [toJs_eq_mkWireBundle] at hv
  unfold validateBundle at hv
  rw [getField_wire_to, getField_wire_tez, getField_wire_context,
      getField_wire_bundle_hash] at hv
  simp only [jsTruthy_some_str, isStringJs_some_str, hcon, Bool.false_and,
    Bool.and_false, Bool.not_false, if_true] at hv
  repeat' split at hv
  all_goals simp at hv

/-- When persistence answers 200 or 207 (i.e. the context loop did not
throw), an inbound `federated_tez` row carrying the bundle's hash has
been recorded. -/
theorem persistInbound_success_fedRow (nfc : String → String) (now : String)
    (nowMs : Nat) (localTezId : String) (ctxId : Nat → String)
    (fedId : String) (s : DbState) (b : FederationBundle)
    (sender : ServerRow) (validRecipients : List (String × String))
    (notFound : List String)
    (hs : (persistInbound nfc now nowMs localTezId ctxId fedId s b sender
            validRecipients notFound).1.status = 200 ∨
          (persistInbound nfc now nowMs localTezId ctxId fedId s b sender
            validRecipients notFound).1.status = 207) :
    ∃ ft ∈ (persistInbound nfc now nowMs localTezId ctxId fedId s b sender
        validRecipients notFound).2.federatedTezRows,
      ft.bundleHash = some b.bundle_hash ∧ ft.direction = "inbound" := by
  unfold persistInbound at hs ⊢
  simp only [] at hs ⊢
  rcases hpc : processCtxItems nfc localTezId now b.fromAddr ctxId b.context 0
    with ⟨ctxRows, ctxErr⟩
  simp only [hpc] at hs ⊢
  cases ctxErr with
  | some e => simp [errResp] at hs
  | none =>
    by_cases hnf : notFound.isEmpty <;> simp [hnf] <;>
      exact ⟨_, Or.inr rfl, rfl, rfl⟩

/-- C3: replay protection by `bundleHash`.  (1) Every submission the
pipeline accepts (200 or 207) records a `federated_tez` row with the
submission's `bundle_hash` and direction `inbound`; (2) once the state
holds a record with a given hash, any inbound submission carrying that
hash changes no persisted state at all; and (3) if such a submission
passes every check before the replay check (headers, trust, signature,
bundle validation), it is rejected with exactly 409 `DUPLICATE_BUNDLE`
and the state is returned untouched. -/
theorem inbox_duplicate_bundleHash_protection :
    (∀ (cfg : RelayConfig) (identityHost : String)
       (sha256hex nfc : String → String) (now : String) (nowMs : Nat)
       (localTezId : String) (ctxId : Nat → String) (fedId : String)
       (s : DbState) (r : InboxRequest),
       ((inboxStep cfg identityHost sha256hex nfc now nowMs localTezId ctxId
           fedId s r).1.status = 200 ∨
        (inboxStep cfg identityHost sha256hex nfc now nowMs localTezId ctxId
           fedId s r).1.status = 207) →
       ∃ ft ∈ (inboxStep cfg identityHost sha256hex nfc now nowMs localTezId
           ctxId fedId s r).2.federatedTezRows,
         ft.bundleHash = some r.body.bundle_hash ∧
           ft.direction = "inbound") ∧
    (∀ (cfg : RelayConfig) (identityHost : String)
       (sha256hex nfc : String → String) (now : String) (nowMs : Nat)
       (localTezId : String) (ctxId : Nat → String) (fedId : String)
       (s : DbState) (r : InboxRequest),
       s.federatedTezRows.any
         (fun ft => ft.bundleHash == some r.body.bundle_hash) = true →
       (inboxStep cfg identityHost sha256hex nfc now nowMs localTezId ctxId
         fedId s r).2 = s) ∧
    (∀ (cfg : RelayConfig) (identityHost : String)
       (sha256hex nfc : String → String) (now : String) (nowMs : Nat)
       (localTezId : String) (ctxId : Nat → String) (fedId : String)
       (s : DbState) (r : InboxRequest) (sender : ServerRow),
       passesPreReplay cfg sha256hex s r sender →
       s.federatedTezRows.any
         (fun ft => ft.bundleHash == some r.body.bundle_hash) = true →
       inboxStep cfg identityHost sha256hex nfc now nowMs localTezId ctxId
           fedId s r =
         (errResp 409 "DUPLICATE_BUNDLE", s)) := by
  refine ⟨?_, ?_, ?_⟩
  · intro cfg identityHost sha256hex nfc now nowMs localTezId ctxId fedId s r
    unfold inboxStep
    repeat' split
    all_goals try (intro hs; simp [errResp] at hs)
    unfold inboxTail
    simp only []
    repeat' split
    all_goals try (intro hs; simp [errResp] at hs)
    exact persistInbound_success_fedRow nfc now nowMs localTezId ctxId fedId
      s r.body _ _ _
  · intro cfg identityHost sha256hex nfc now nowMs localTezId ctxId fedId s r
      hdup
    unfold inboxStep
    repeat' split
    all_goals try rfl
    rename_i hval
    unfold inboxTail
    rw [if_pos (by
      simp [validateBundle_none_hash_truthy sha256hex r.body hval, hdup])]
  · intro cfg identityHost sha256hex nfc now nowMs localTezId ctxId fedId s r
      sender h hdup
    rw [inboxStep_eq_tail cfg identityHost sha256hex nfc now nowMs localTezId
      ctxId fedId s r sender h]
    unfold inboxTail
    rw [if_pos (by
      simp [validateBundle_none_hash_truthy sha256hex r.body
        h.2.2.2.2.2.2.2.2.2.2, hdup])]

/-! Concrete scenario shared by the inbox witnesses: an open-mode relay
at `local.example`, a trusted sender, and a two-recipient bundle of
which only `bob@local.example` exists as a contact. -/

def inboxCfg : RelayConfig :=
  { federationEnabled := true, federationMode := "open",
    maxTezSizeBytes := 1048576, relayHost := "local.example" }

def inboxSender : ServerRow :=
  { host := "remote.example", serverId := "srvR", publicKey := "pk",
    displayName := none, trustLevel := "trusted", protocolVersion := none,
    lastSeenAt := none, firstSeenAt := 0, metadata := none }

def inboxBundle : FederationBundle :=
  { protocol_version := "1.2.4", bundle_type := "federation_delivery",
    sender_server := "remote.example", sender_server_id := "srvR",
    fromAddr := "alice@remote.example",
    toAddrs := ["bob@local.example", "carol@local.example"],
    tez := tezSample, context := [], bundle_hash := "h", signed_at := "t" }

def inboxState : DbState :=
  { contacts := [{ id := "u-bob", tezAddress := "bob@local.example" }],
    tezRows := [], tezContextRows := [], tezRecipientRows := [],
    federatedTezRows := [], servers := [inboxSender] }

def inboxReq : InboxRequest :=
  { contentLength := 100, signature := some "sig",
    signatureInput := some "keyId=\"srvR\"", digest := some "dig",
    date := some "d", host := some "local.example", nonce := none,
    body := inboxBundle, sigValid := true }

/-- The state after the first (successful, 207) submission. -/
def inboxState2 : DbState :=
  (inboxStep inboxCfg "local.example" (fun _ => "h") (fun x => x) "T0" 5
    "tid" (fun _ => "cid") "fid" inboxState inboxReq).2

/-- The sender row as it appears after the first submission refreshed
its `lastSeenAt`. -/
def inboxSender2 : ServerRow := { inboxSender with lastSeenAt := some 5 }

theorem inboxReq_passes : passesPreReplay inboxCfg (fun _ => "h")
    inboxState2 inboxReq inboxSender2 :=
  ⟨rfl, by decide, by decide, by decide, by decide, by decide,
   ⟨"srvR", by decide, by decide⟩, by decide,
   fun h => absurd h (by decide), rfl, by decide⟩

/-- Witness for C3: the first submission (207) records the hash; the
replayed identical submission against the resulting state is answered
409 with the state unchanged. -/
theorem inbox_duplicate_bundleHash_protection_witness :
    (∃ ft ∈ (inboxStep inboxCfg "local.example" (fun _ => "h") (fun x => x)
        "T0" 5 "tid" (fun _ => "cid") "fid" inboxState
        inboxReq).2.federatedTezRows,
      ft.bundleHash = some inboxBundle.bundle_hash ∧
        ft.direction = "inbound") ∧
    inboxStep inboxCfg "local.example" (fun _ => "h") (fun x => x) "T1" 6
        "tid2" (fun _ => "cid2") "fid2" inboxState2 inboxReq =
      (errResp 409 "DUPLICATE_BUNDLE", inboxState2) :=
  ⟨inbox_duplicate_bundleHash_protection.1 inboxCfg "local.example"
    (fun _ => "h") (fun x => x) "T0" 5 "tid" (fun _ => "cid") "fid"
    inboxState inboxReq (Or.inr (by decide)),
   inbox_duplicate_bundleHash_protection.2.2 inboxCfg "local.example"
    (fun _ => "h") (fun x => x) "T1" 6 "tid2" (fun _ => "cid2") "fid2"
    inboxState2 inboxReq inboxSender2 inboxReq_passes (by decide)⟩

/-- The context loop never throws when every item's content is within
the 256 KiB sanitization limit. -/
theorem processCtxItems_no_throw (nfc : String → String)
    (tezId now createdBy : String) (ctxId : Nat → String)
    (items : List CtxItem) (i : Nat)
    (h : ∀ item ∈ items, utf16Length item.content ≤ MAX_CONTEXT_CONTENT_LENGTH) :
    (processCtxItems nfc tezId now createdBy ctxId items i).2 = none := by
  induction items generalizing i with
  | nil => rfl
  | cons item rest ih =>
    unfold processCtxItems sanitizeContextItem
    rw [if_neg (by simp [Nat.not_lt.mpr (h item (by simp))])]
    simp only []
    rcases hpc : processCtxItems nfc tezId now createdBy ctxId rest (i + 1)
      with ⟨rows, err⟩
    have := ih (i + 1) (fun it hit => h it (List.mem_cons_of_mem _ hit))
    rw [hpc] at this
    simpa using this

/-- When the context loop succeeds and some recipients were unresolved,
persistence answers 207 listing them, stores the message row, and stores
one delivery row per resolved recipient. -/
theorem persistInbound_partial_success (nfc : String → String) (now : String)
    (nowMs : Nat) (localTezId : String) (ctxId : Nat → String)
    (fedId : String) (s : DbState) (b : FederationBundle)
    (sender : ServerRow) (validRecipients : List (String × String))
    (notFound : List String)
    (hctx : (processCtxItems nfc localTezId now b.fromAddr ctxId
              b.context 0).2 = none)
    (hnf : notFound ≠ []) :
    (persistInbound nfc now nowMs localTezId ctxId fedId s b sender
        validRecipients notFound).1.status = 207 ∧
    (persistInbound nfc now nowMs localTezId ctxId fedId s b sender
        validRecipients notFound).1.notFound = notFound ∧
    (∃ trow ∈ (persistInbound nfc now nowMs localTezId ctxId fedId s b
        sender validRecipients notFound).2.tezRows, trow.id = localTezId) ∧
    (∀ vr ∈ validRecipients,
      ∃ rr ∈ (persistInbound nfc now nowMs localTezId ctxId fedId s b sender
          validRecipients notFound).2.tezRecipientRows,
        rr.tezId = localTezId ∧ rr.userId = vr.2) := by
  unfold persistInbound
  simp only []
  rcases hpc : processCtxItems nfc localTezId now b.fromAddr ctxId b.context 0
    with ⟨ctxRows, ctxErr⟩
  rw [hpc] at hctx
  simp only at hctx
  subst hctx
  have hnf' : notFound.isEmpty = false := by
    cases notFound with
    | nil => exact absurd rfl hnf
    | cons a l => rfl
  simp only [hnf', Bool.not_false, if_true]
  refine ⟨trivial, trivial, ?_, ?_⟩
  · exact ⟨_, List.mem_append_right _ (List.mem_singleton_self _), rfl⟩
  intro vr hvr
  refine
    ⟨{ tezId := localTezId, userId := vr.2, deliveredAt := now,
       readAt := none, acknowledgedAt := none }, ?_, rfl, rfl⟩
  simp only [List.mem_append]
  right
  exact List.mem_map_of_mem _ hvr

/-- C2 (amended): for a submission that passes all earlier pipeline
checks (the gates before the replay check, a fresh bundle hash, and a
nonempty local-recipient list): (a) if no local recipient resolves to an
existing contact, the pipeline answers 422 `RECIPIENTS_NOT_FOUND`
listing the addresses and persists nothing — the state is returned
exactly as it was; (b) if at least one but not all local recipients
resolve and every context item is within the 256 KiB sanitization limit,
the message is persisted, one delivery row is stored per resolved
recipient, and the response is a 207 listing the unresolved addresses.
(An oversized context item instead aborts mid-persistence with a 500 —
the counterexample theorem.) -/
theorem inbox_recipient_resolution :
    (∀ (cfg : RelayConfig) (identityHost : String)
       (sha256hex nfc : String → String) (now : String) (nowMs : Nat)
       (localTezId : String) (ctxId : Nat → String) (fedId : String)
       (s : DbState) (r : InboxRequest) (sender : ServerRow)
       (nf : List String),
       passesPreReplay cfg sha256hex s r sender →
       s.federatedTezRows.any
         (fun ft => ft.bundleHash == some r.body.bundle_hash) = false →
       localRecipientsOf identityHost r.body ≠ [] →
       resolveRecipients s.contacts (localRecipientsOf identityHost r.body)
         = ([], nf) →
       inboxStep cfg identityHost sha256hex nfc now nowMs localTezId ctxId
           fedId s r =
         ({ status := 422, code := some "RECIPIENTS_NOT_FOUND",
            notFound := nf, localTezIds := [] }, s)) ∧
    (∀ (cfg : RelayConfig) (identityHost : String)
       (sha256hex nfc : String → String) (now : String) (nowMs : Nat)
       (localTezId : String) (ctxId : Nat → String) (fedId : String)
       (s : DbState) (r : InboxRequest) (sender : ServerRow)
       (valid : List (String × String)) (nf : List String),
       passesPreReplay cfg sha256hex s r sender →
       s.federatedTezRows.any
         (fun ft => ft.bundleHash == some r.body.bundle_hash) = false →
       resolveRecipients s.contacts (localRecipientsOf identityHost r.body)
         = (valid, nf) →
       valid ≠ [] → nf ≠ [] →
       (∀ item ∈ r.body.context,
         utf16Length item.content ≤ MAX_CONTEXT_CONTENT_LENGTH) →
       (inboxStep cfg identityHost sha256hex nfc now nowMs localTezId ctxId
           fedId s r).1.status = 207 ∧
       (inboxStep cfg identityHost sha256hex nfc now nowMs localTezId ctxId
           fedId s r).1.notFound = nf ∧
       (∃ trow ∈ (inboxStep cfg identityHost sha256hex nfc now nowMs
           localTezId ctxId fedId s r).2.tezRows, trow.id = localTezId) ∧
       (∀ vr ∈ valid,
         ∃ rr ∈ (inboxStep cfg identityHost sha256hex nfc now nowMs
             localTezId ctxId fedId s r).2.tezRecipientRows,
           rr.tezId = localTezId ∧ rr.userId = vr.2)) := by
  constructor
  · intro cfg identityHost sha256hex nfc now nowMs localTezId ctxId fedId s r
      sender nf h hdup hlocal hres
    rw [inboxStep_eq_tail cfg identityHost sha256hex nfc now nowMs localTezId
      ctxId fedId s r sender h]
    unfold inboxTail
    simp only []
    rw [if_neg (by simp [hdup])]
    rw [if_neg (by simp [List.isEmpty_iff, hlocal])]
    simp only [hres]
    rfl
  · intro cfg identityHost sha256hex nfc now nowMs localTezId ctxId fedId s r
      sender valid nf h hdup hres hvalid hnf hctxlen
    have hlocal : localRecipientsOf identityHost r.body ≠ [] := by
      intro hl
      rw [hl] at hres
      have : valid = [] := by
        have := congrArg Prod.fst hres
        simpa using this.symm
      exact hvalid this
    have heq := inboxStep_eq_tail cfg identityHost sha256hex nfc now nowMs
      localTezId ctxId fedId s r sender h
    have hc1 : (jsStrTruthy r.body.bundle_hash &&
        s.federatedTezRows.any
          (fun ft => ft.bundleHash == some r.body.bundle_hash)) = false := by
      simp [hdup]
    have htail : inboxTail identityHost nfc now nowMs localTezId ctxId fedId
        s r.body sender =
          persistInbound nfc now nowMs localTezId ctxId fedId s r.body sender
            valid nf := by
      unfold inboxTail
      simp only []
      rw [if_neg (by simp [hc1])]
      rw [if_neg (by simp [List.isEmpty_iff, hlocal])]
      simp only [hres]
      rw [if_neg (by simp [List.isEmpty_iff, hvalid])]
    simp only [heq, htail]
    exact persistInbound_partial_success nfc now nowMs localTezId ctxId fedId
      s r.body sender valid nf
      (processCtxItems_no_throw nfc localTezId now r.body.fromAddr ctxId
        r.body.context 0 hctxlen) hnf

/-- A context content of 262145 characters — one over the 256 KiB
sanitization limit, well under the 1 MB bundle size limit. -/
def bigContent : String := String.mk (List.replicate 262145 'a')

theorem utf16Length_bigContent : utf16Length bigContent = 262145 := by
  show ((List.replicate 262145 'a').map utf16Len).sum = 262145
  rw [List.map_replicate]
  have h1 : utf16Len 'a' = 1 := by decide
  rw [h1, List.sum_replicate, smul_eq_mul, mul_one]

def bigCtxItem : CtxItem :=
  { layer := "fact", content := bigContent, mimeType := none,
    confidence := none, source := none }

theorem sanitizeContextItem_bigItem (nfc : String → String) :
    sanitizeContextItem nfc bigCtxItem =
      .error "Context content exceeds maximum length (262144 bytes)" := by
  have h : utf16Length bigCtxItem.content > MAX_CONTEXT_CONTENT_LENGTH := by
    have hc : bigCtxItem.content = bigContent := rfl
    rw [hc, utf16Length_bigContent]
    norm_num [MAX_CONTEXT_CONTENT_LENGTH]
  unfold sanitizeContextItem
  rw [if_pos h]

/-- The context loop stops at the first item whose sanitization throws,
inserting nothing from that point on. -/
theorem processCtxItems_error (nfc : String → String)
    (tezId now createdBy : String) (ctxId : Nat → String) (item : CtxItem)
    (rest : List CtxItem) (i : Nat) (e : String)
    (h : sanitizeContextItem nfc item = .error e) :
    processCtxItems nfc tezId now createdBy ctxId (item :: rest) i =
      ([], some e) := by
  unfold processCtxItems
  rw [h]

theorem processCtxItems_big (nfc : String → String)
    (tezId now createdBy : String) (ctxId : Nat → String) :
    processCtxItems nfc tezId now createdBy ctxId [bigCtxItem] 0 =
      ([], some "Context content exceeds maximum length (262144 bytes)") :=
  processCtxItems_error nfc tezId now createdBy ctxId bigCtxItem [] 0 _
    (sanitizeContextItem_bigItem nfc)

def bundleBig : FederationBundle :=
  { protocol_version := "1.2.4", bundle_type := "federation_delivery",
    sender_server := "remote.example", sender_server_id := "srvR",
    fromAddr := "alice@remote.example",
    toAddrs := ["bob@local.example", "carol@local.example"],
    tez := tezSample, context := [bigCtxItem], bundle_hash := "h",
    signed_at := "t" }

def reqBig : InboxRequest :=
  { contentLength := 100, signature := some "sig",
    signatureInput := some "keyId=\"srvR\"", digest := some "dig",
    date := some "d", host := some "local.example", nonce := none,
    body := bundleBig, sigValid := true }

/-- A sanitization throw in the context loop makes persistence answer
500, leaving the already-inserted tez row (and the context rows from
before the throw) but no recipient rows and no `federated_tez` row. -/
theorem persistInbound_ctx_error (nfc : String → String) (now : String)
    (nowMs : Nat) (localTezId : String) (ctxId : Nat → String)
    (fedId : String) (s : DbState) (b : FederationBundle)
    (sender : ServerRow) (validRecipients : List (String × String))
    (notFound : List String) (rows : List TezContextRow) (e : String)
    (h : processCtxItems nfc localTezId now b.fromAddr ctxId b.context 0 =
      (rows, some e)) :
    persistInbound nfc now nowMs localTezId ctxId fedId s b sender
        validRecipients notFound =
      (errResp 500 "INTERNAL_ERROR",
       { s with tezRows := s.tezRows ++ [inboundTezRow nfc now localTezId b],
                tezContextRows := s.tezContextRows ++ rows }) := by
  unfold persistInbound
  simp only []
  rw [h]

/-- The authentication gates and the recipient checks of the concrete
oversized-context scenario all pass, so the handler reaches
persistence. -/
theorem inboxTail_big_reaches_persist :
    inboxTail "local.example" (fun x => x) "T0" 5 "tid" (fun _ => "cid")
        "fid" inboxState bundleBig inboxSender =
      persistInbound (fun x => x) "T0" 5 "tid" (fun _ => "cid") "fid"
        inboxState bundleBig inboxSender [("bob@local.example", "u-bob")]
        ["carol@local.example"] := by
  unfold inboxTail
  simp only []
  rw [if_neg (by decide)]
  rw [if_neg (by decide)]
  have hres : resolveRecipients inboxState.contacts
      (localRecipientsOf "local.example" bundleBig) =
        ([("bob@local.example", "u-bob")], ["carol@local.example"]) := by
    decide
  simp only [hres]
  rw [if_neg (by decide)]

/-- C2 counterexample: a bundle addressed to one resolvable and one
unresolvable recipient whose single context item exceeds the 256 KiB
sanitization limit is answered 500, not 207 — and it leaves a
partially-persisted message (a tez row with no recipient rows), so the
claimed partial-success behavior does not hold as stated. -/
theorem inbox_oversized_context_breaks_partial_success :
    (inboxStep inboxCfg "local.example" (fun _ => "h") (fun x => x) "T0" 5
        "tid" (fun _ => "cid") "fid" inboxState reqBig).1.status = 500 ∧
    (inboxStep inboxCfg "local.example" (fun _ => "h") (fun x => x) "T0" 5
        "tid" (fun _ => "cid") "fid" inboxState reqBig).2.tezRows ≠ [] ∧
    (inboxStep inboxCfg "local.example" (fun _ => "h") (fun x => x) "T0" 5
        "tid" (fun _ => "cid") "fid" inboxState
        reqBig).2.tezRecipientRows = [] := by
  have h : passesPreReplay inboxCfg (fun _ => "h") inboxState reqBig
      inboxSender :=
    ⟨rfl, by decide, by decide, by decide, by decide, by decide,
     ⟨"srvR", by decide, by decide⟩, by decide,
     fun hm => absurd hm (by decide), rfl, by decide⟩
  have hproc : processCtxItems (fun x => x) "tid" "T0" bundleBig.fromAddr
      (fun _ => "cid") bundleBig.context 0 =
        ([], some "Context content exceeds maximum length (262144 bytes)") := by
    rw [show bundleBig.context = [bigCtxItem] from rfl]
    exact processCtxItems_big (fun x => x) "tid" "T0" bundleBig.fromAddr
      (fun _ => "cid")
  have hstep : inboxStep inboxCfg "local.example" (fun _ => "h")
      (fun x => x) "T0" 5 "tid" (fun _ => "cid") "fid" inboxState reqBig =
        (errResp 500 "INTERNAL_ERROR",
         { inboxState with
             tezRows := inboxState.tezRows ++
               [inboundTezRow (fun x => x) "T0" "tid" bundleBig],
             tezContextRows := inboxState.tezContextRows ++ [] }) := by
    rw [inboxStep_eq_tail inboxCfg "local.example" (fun _ => "h")
      (fun x => x) "T0" 5 "tid" (fun _ => "cid") "fid" inboxState reqBig
      inboxSender h]
    rw [show reqBig.body = bundleBig from rfl]
    rw [inboxTail_big_reaches_persist]
    exact persistInbound_ctx_error (fun x => x) "T0" 5 "tid" (fun _ => "cid")
      "fid" inboxState bundleBig inboxSender
      [("bob@local.example", "u-bob")] ["carol@local.example"] [] _ hproc
  rw [hstep]
  refine ⟨rfl, by simp, rfl⟩

theorem inboxReq_passes_fresh : passesPreReplay inboxCfg (fun _ => "h")
    inboxState inboxReq inboxSender :=
  ⟨rfl, by decide, by decide, by decide, by decide, by decide,
   ⟨"srvR", by decide, by decide⟩, by decide,
   fun hm => absurd hm (by decide), rfl, by decide⟩

/-- Witness for C2 (amended): the concrete one-resolvable /
one-unresolvable submission yields 207, reports `carol@local.example`
as unresolved, persists the message row, and stores a delivery row for
the resolved recipient. -/
theorem inbox_recipient_resolution_witness :
    (inboxStep inboxCfg "local.example" (fun _ => "h") (fun x => x) "T0" 5
        "tid" (fun _ => "cid") "fid" inboxState inboxReq).1.status = 207 ∧
    (inboxStep inboxCfg "local.example" (fun _ => "h") (fun x => x) "T0" 5
        "tid" (fun _ => "cid") "fid" inboxState inboxReq).1.notFound =
      ["carol@local.example"] ∧
    (∃ trow ∈ (inboxStep inboxCfg "local.example" (fun _ => "h")
        (fun x => x) "T0" 5 "tid" (fun _ => "cid") "fid" inboxState
        inboxReq).2.tezRows, trow.id = "tid") ∧
    (∀ vr ∈ [("bob@local.example", "u-bob")],
      ∃ rr ∈ (inboxStep inboxCfg "local.example" (fun _ => "h")
          (fun x => x) "T0" 5 "tid" (fun _ => "cid") "fid" inboxState
          inboxReq).2.tezRecipientRows,
        rr.tezId = "tid" ∧ rr.userId = vr.2) :=
  inbox_recipient_resolution.2 inboxCfg "local.example" (fun _ => "h")
    (fun x => x) "T0" 5 "tid" (fun _ => "cid") "fid" inboxState inboxReq
    inboxSender [("bob@local.example", "u-bob")] ["carol@local.example"]
    inboxReq_passes_fresh (by decide) (by decide) (by decide) (by decide)
    (by decide)

/-- No zero-width character, bidi override, or stripped control
character occurs in the string. -/
def cleanStr (s : String) : Bool :=
  s.data.all (fun c =>
    !(isZeroWidthChar c || isBidiOverrideChar c || isControlCharStripped c))

/-- The MIME types that can reach storage: `null`, the empty string
(falsy, so the allowlist check skips it), or an allowlisted type. -/
def storedMimeOk : Option String → Bool
  | none => true
  | some m => (m == "") || ALLOWED_MIME_TYPES.contains m

theorem sanitizeText_clean (nfc : String → String) (x : String) :
    cleanStr (sanitizeText nfc x) = true := by
  unfold cleanStr sanitizeText
  rw [List.all_eq_true]
  intro c hc
  have hc3 : c ∈ List.filter (fun c => !isControlCharStripped c)
      (List.filter (fun c => !isBidiOverrideChar c)
        (List.filter (fun c => !isZeroWidthChar c) (nfc x).data)) := hc
  have h3 := (List.mem_filter.mp hc3).2
  have hc2 := (List.mem_filter.mp hc3).1
  have h2 := (List.mem_filter.mp hc2).2
  have hc1 := (List.mem_filter.mp hc2).1
  have h1 := (List.mem_filter.mp hc1).2
  simp only [Bool.not_eq_true'] at h1 h2 h3
  simp [h1, h2, h3]

theorem sanitizeContextItem_ok (nfc : String → String) (item : CtxItem)
    (c : String) (mt : Option String)
    (h : sanitizeContextItem nfc item = .ok (c, mt)) :
    c = sanitizeText nfc item.content ∧ storedMimeOk mt = true := by
  unfold sanitizeContextItem at h
  split at h
  · simp at h
  · simp only [Except.ok.injEq, Prod.mk.injEq] at h
    obtain ⟨hc, hm⟩ := h
    refine ⟨hc.symm, ?_⟩
    rcases hmem : item.mimeType with _ | m
    · rw [hmem] at hm
      simp only [] at hm
      rw [← hm]
      rfl
    · rw [hmem] at hm
      simp only [] at hm
      by_cases ht : (jsStrTruthy m && !ALLOWED_MIME_TYPES.contains m) = true
      · rw [if_pos ht] at hm
        rw [← hm]
        decide
      · rw [if_neg ht] at hm
        rw [← hm]
        simp only [Bool.and_eq_true, Bool.not_eq_true'] at ht
        by_cases hcm : ALLOWED_MIME_TYPES.contains m = true
        · unfold storedMimeOk
          simp only [Bool.or_eq_true]
          exact Or.inr hcm
        · have hcm' : ALLOWED_MIME_TYPES.contains m = false := by
            cases hb : ALLOWED_MIME_TYPES.contains m
            · rfl
            · exact absurd hb hcm
          have htm : jsStrTruthy m = false := by
            cases hb : jsStrTruthy m
            · rfl
            · exact absurd ⟨hb, hcm'⟩ ht
          have hm0 : m = "" := by
            by_contra hne
            rw [(jsStrTruthy_iff m).mpr hne] at htm
            cases htm
          unfold storedMimeOk
          simp [hm0]

theorem inboundTezRow_sanitized (nfc : String → String)
    (now localTezId : String) (b : FederationBundle) :
    cleanStr (inboundTezRow nfc now localTezId b).surfaceText = true ∧
    ∀ a, (inboundTezRow nfc now localTezId b).actionRequested = some a →
      cleanStr a = true := by
  constructor
  · exact sanitizeText_clean nfc _
  · intro a ha
    have ha' : (match b.tez.actionRequested with
        | some x => if jsStrTruthy x then some (sanitizeText nfc x) else none
        | none => none) = some a := ha
    rcases hb : b.tez.actionRequested with _ | orig
    · simp only [hb] at ha'
      cases ha'
    · simp only [hb] at ha'
      by_cases ht : jsStrTruthy orig = true
    -- the stored value is the sanitized original
      · rw [if_pos ht] at ha'
        simp only [Option.some.injEq] at ha'
        rw [← ha']
        exact sanitizeText_clean nfc orig
      · rw [if_neg ht] at ha'
        simp at ha'

theorem processCtxItems_rows (nfc : String → String)
    (tezId now createdBy : String) (ctxId : Nat → String)
    (items : List CtxItem) (i : Nat) (row : TezContextRow)
    (h : row ∈ (processCtxItems nfc tezId now createdBy ctxId items i).1) :
    cleanStr row.content = true ∧ storedMimeOk row.mimeType = true := by
  induction items generalizing i with
  | nil => simp [processCtxItems] at h
  | cons item rest ih =>
    unfold processCtxItems at h
    rcases hs : sanitizeContextItem nfc item with e | ⟨c, mt⟩
    · rw [hs] at h
      simp at h
    · rw [hs] at h
      simp only [] at h
      rcases hpc : processCtxItems nfc tezId now createdBy ctxId rest (i + 1)
        with ⟨rows, err⟩
      rw [hpc] at h
      simp only [List.mem_cons] at h
      rcases h with h | h
      · obtain ⟨hc, hm⟩ := sanitizeContextItem_ok nfc item c mt hs
        subst h
        constructor
        · show cleanStr c = true
          rw [hc]
          exact sanitizeText_clean nfc _
        · exact hm
      · exact ih (i + 1) (by rw [hpc]; exact h)

/-- Both outcomes of persistence (success or mid-loop sanitization
throw) store only sanitized rows beyond the pre-existing ones. -/
theorem persistInbound_sanitized (nfc : String → String) (now : String)
    (nowMs : Nat) (localTezId : String) (ctxId : Nat → String)
    (fedId : String) (s : DbState) (b : FederationBundle)
    (sender : ServerRow) (validRecipients : List (String × String))
    (notFound : List String) :
    (∀ row ∈ (persistInbound nfc now nowMs localTezId ctxId fedId s b sender
        validRecipients notFound).2.tezContextRows,
      row ∈ s.tezContextRows ∨
        (cleanStr row.content = true ∧ storedMimeOk row.mimeType = true)) ∧
    (∀ trow ∈ (persistInbound nfc now nowMs localTezId ctxId fedId s b
        sender validRecipients notFound).2.tezRows,
      trow ∈ s.tezRows ∨
        (cleanStr trow.surfaceText = true ∧
         ∀ a, trow.actionRequested = some a → cleanStr a = true)) := by
  unfold persistInbound
  simp only []
  rcases hpc : processCtxItems nfc localTezId now b.fromAddr ctxId b.context 0
    with ⟨ctxRows, ctxErr⟩
  have hrows : ∀ row ∈ ctxRows,
      cleanStr row.content = true ∧ storedMimeOk row.mimeType = true := by
    intro row hr
    exact processCtxItems_rows nfc localTezId now b.fromAddr ctxId b.context
      0 row (by rw [hpc]; exact hr)
  have hctxGoal : ∀ row ∈ s.tezContextRows ++ ctxRows,
      row ∈ s.tezContextRows ∨
        (cleanStr row.content = true ∧ storedMimeOk row.mimeType = true) := by
    intro row hr
    rcases List.mem_append.mp hr with hr | hr
    · exact Or.inl hr
    · exact Or.inr (hrows row hr)
  have htezGoal : ∀ trow ∈ s.tezRows ++ [inboundTezRow nfc now localTezId b],
      trow ∈ s.tezRows ∨
        (cleanStr trow.surfaceText = true ∧
         ∀ a, trow.actionRequested = some a → cleanStr a = true) := by
    intro trow hr
    rcases List.mem_append.mp hr with hr | hr
    · exact Or.inl hr
    · rw [List.mem_singleton.mp hr]
      exact Or.inr (inboundTezRow_sanitized nfc now localTezId b)
  cases ctxErr with
  | some e => exact ⟨hctxGoal, htezGoal⟩
  | none =>
    by_cases hnf : notFound.isEmpty <;> simp only [hnf] <;>
      exact ⟨hctxGoal, htezGoal⟩

/-- C10 (amended): every piece of text the inbound pipeline stores has
passed `sanitizeText` — NFC normalization (the `nfc` parameter) followed
by removal of zero-width, bidi-override, and stripped control
characters, so no stored surface text, action-requested text, or context
content contains such characters; and a context item whose MIME type is
a nonempty string outside the allowlist is stored with `text/plain`
rather than rejected (a `null` or empty-string MIME type is stored
unchanged, which is what the counterexample forces the claim to
concede). -/
theorem inbox_stores_sanitized_content :
    (∀ (nfc : String → String) (x : String),
      cleanStr (sanitizeText nfc x) = true) ∧
    (∀ (nfc : String → String) (item : CtxItem) (m : String),
      utf16Length item.content ≤ MAX_CONTEXT_CONTENT_LENGTH →
      item.mimeType = some m → m ≠ "" →
      ALLOWED_MIME_TYPES.contains m = false →
      sanitizeContextItem nfc item =
        .ok (sanitizeText nfc item.content, some "text/plain")) ∧
    (∀ (cfg : RelayConfig) (identityHost : String)
       (sha256hex nfc : String → String) (now : String) (nowMs : Nat)
       (localTezId : String) (ctxId : Nat → String) (fedId : String)
       (s : DbState) (r : InboxRequest),
      (∀ row ∈ (inboxStep cfg identityHost sha256hex nfc now nowMs
          localTezId ctxId fedId s r).2.tezContextRows,
        row ∈ s.tezContextRows ∨
          (cleanStr row.content = true ∧
           storedMimeOk row.mimeType = true)) ∧
      (∀ trow ∈ (inboxStep cfg identityHost sha256hex nfc now nowMs
          localTezId ctxId fedId s r).2.tezRows,
        trow ∈ s.tezRows ∨
          (cleanStr trow.surfaceText = true ∧
           ∀ a, trow.actionRequested = some a → cleanStr a = true))) := by
  refine ⟨sanitizeText_clean, ?_, ?_⟩
  · intro nfc item m hlen hmem hne hcontains
    unfold sanitizeContextItem
    rw [if_neg (by simp [Nat.not_lt.mpr hlen])]
    rw [hmem]
    simp only []
    rw [if_pos (by
      simp only [Bool.and_eq_true, Bool.not_eq_true']
      exact ⟨(jsStrTruthy_iff m).mpr hne, hcontains⟩)]
  · intro cfg identityHost sha256hex nfc now nowMs localTezId ctxId fedId s r
    unfold inboxStep
    repeat' split
    all_goals
      try exact ⟨fun row hr => Or.inl hr, fun trow hr => Or.inl hr⟩
    unfold inboxTail
    simp only []
    repeat' split
    all_goals
      try exact ⟨fun row hr => Or.inl hr, fun trow hr => Or.inl hr⟩
    exact persistInbound_sanitized nfc now nowMs localTezId ctxId fedId s
      r.body _ _ _

/-- A context item carrying the empty string as its MIME type — outside
the allowlist, but falsy, so the allowlist check skips it. -/
def emptyMimeItem : CtxItem :=
  { layer := "fact", content := "x", mimeType := some "",
    confidence := none, source := none }

def bundleMime : FederationBundle :=
  { protocol_version := "1.2.4", bundle_type := "federation_delivery",
    sender_server := "remote.example", sender_server_id := "srvR",
    fromAddr := "alice@remote.example", toAddrs := ["bob@local.example"],
    tez := tezSample, context := [emptyMimeItem], bundle_hash := "h",
    signed_at := "t" }

def reqMime : InboxRequest :=
  { contentLength := 100, signature := some "sig",
    signatureInput := some "keyId=\"srvR\"", digest := some "dig",
    date := some "d", host := some "local.example", nonce := none,
    body := bundleMime, sigValid := true }

/-- C10 counterexample: the empty-string MIME type is outside the
allowlist, yet it is stored unchanged rather than as `text/plain`: the
JavaScript check `if (mimeType && !ALLOWED_MIME_TYPES.has(mimeType))`
skips falsy strings, and the pipeline persists the context row with
`mimeType = ""`. -/
theorem inbox_empty_mime_stored_unchanged :
    sanitizeContextItem (fun x => x) emptyMimeItem = .ok ("x", some "") ∧
    ALLOWED_MIME_TYPES.contains "" = false ∧
    ((inboxStep inboxCfg "local.example" (fun _ => "h") (fun x => x) "T0" 5
        "tid" (fun _ => "cid") "fid" inboxState
        reqMime).2.tezContextRows.map (fun cr => cr.mimeType)) =
      [some ""] := by
  refine ⟨rfl, by decide, by decide⟩

/-- A context item with a nonempty, non-allowlisted MIME type, for the
C10 witness. -/
def evilMimeItem : CtxItem :=
  { layer := "fact", content := "x", mimeType := some "application/evil",
    confidence := none, source := none }

/-- Witness for C10 (amended) at concrete inputs: sanitization strips a
zero-width character, a nonempty non-allowlisted MIME type becomes
`text/plain`, and the pipeline's stored rows are sanitized for the
concrete 207 scenario. -/
theorem inbox_stores_sanitized_content_witness :
    cleanStr (sanitizeText (fun x => x) "a​b") = true ∧
    sanitizeContextItem (fun x => x) evilMimeItem =
      .ok (sanitizeText (fun x => x) "x", some "text/plain") ∧
    (∀ row ∈ (inboxStep inboxCfg "local.example" (fun _ => "h")
        (fun x => x) "T0" 5 "tid" (fun _ => "cid") "fid" inboxState
        inboxReq).2.tezContextRows,
      row ∈ inboxState.tezContextRows ∨
        (cleanStr row.content = true ∧ storedMimeOk row.mimeType = true)) :=
  ⟨inbox_stores_sanitized_content.1 (fun x => x) "a​b",
   inbox_stores_sanitized_content.2.1 (fun x => x) evilMimeItem
     "application/evil" (by decide) (by decide) (by decide) (by decide),
   (inbox_stores_sanitized_content.2.2 inboxCfg "local.example"
     (fun _ => "h") (fun x => x) "T0" 5 "tid" (fun _ => "cid") "fid"
     inboxState inboxReq).1⟩

/-! ## Trust Registry & Handshake — `POST /federation/verify`,
`PATCH /admin/federation/servers/:host`, `welcomeCookie.ts`

The process-wide state: the durable `federated_servers` table plus the
in-memory `welcomeSentTo` dedup set (reset at process start).
`welcomeDeliveries` instruments the model: it records every welcome
delivery actually triggered (the body of `sendWelcomeCookie` past the
dedup guard), in order. -/

structure TrustState where
  servers : List ServerRow
  welcomeSentTo : List String
  welcomeDeliveries : List String
deriving Repr, DecidableEq

/-- `sendWelcomeCookie` (Issue #11): skip if already sent to this host
in the current process lifetime, else record and deliver. -/
def sendWelcomeCookie (s : TrustState) (targetHost : String) : TrustState :=
  if targetHost ∈ s.welcomeSentTo then s
  else { s with welcomeSentTo := targetHost :: s.welcomeSentTo,
                welcomeDeliveries := targetHost :: s.welcomeDeliveries }

/-- One operation against the registry.  `handshakeVerify` carries the
clock reading used for the `firstSeenAt`/`lastSeenAt` stamps. -/
inductive TrustOp where
  | handshakeVerify (host serverId publicKey : String)
      (displayName : Option String) (nowMs : Nat)
  | adminSetTrust (host level : String)
  | adminDelete (host : String)
deriving Repr, DecidableEq

/-- `POST /federation/verify`: refresh a known host (key rotation is
accepted implicitly), or insert an unknown one at `trusted` (open mode)
or `pending` (any other mode), sending the welcome cookie on the
auto-trust path. -/
def verifyStep (enabled : Bool) (mode : String) (s : TrustState)
    (host serverId publicKey : String) (displayName : Option String)
    (nowMs : Nat) : TrustState :=
  if !enabled then s
  else if !(jsStrTruthy host && jsStrTruthy serverId &&
            jsStrTruthy publicKey) then s
  else
    match s.servers.find? (fun r => r.host == host) with
    | some _ =>
      { s with servers := s.servers.map (fun r =>
          if r.host == host then
            { r with lastSeenAt := some nowMs, publicKey := publicKey,
                     serverId := serverId,
                     displayName := match displayName with
                       | some d => some d
                       | none => r.displayName }
          else r) }
    | none =>
      let trustLevel := if mode == "open" then "trusted" else "pending"
      let s1 := { s with servers := s.servers ++
        [{ host := host, serverId := serverId, publicKey := publicKey,
           displayName := displayName, trustLevel := trustLevel,
           protocolVersion := some "1.2.4", lastSeenAt := some nowMs,
           firstSeenAt := nowMs, metadata := none }] }
      if trustLevel == "trusted" then sendWelcomeCookie s1 host else s1

/-- `PATCH /admin/federation/servers/:host` (admin-only; the caller's
authorization is outside this model): update the trust level, sending
the welcome cookie on a promotion into `trusted`. -/
def setTrustStep (s : TrustState) (host level : String) : TrustState :=
  if !(jsTruthyOptStr (some level) &&
       ["pending", "trusted", "blocked"].contains level) then s
  else
    match s.servers.find? (fun r => r.host == host) with
    | none => s
    | some existing =>
      let s1 := { s with servers := s.servers.map (fun r =>
          if r.host == host then { r with trustLevel := level } else r) }
      if level == "trusted" && existing.trustLevel != "trusted" then
        sendWelcomeCookie s1 host
      else s1

/-- `DELETE /admin/federation/servers/:host`. -/
def deleteStep (s : TrustState) (host : String) : TrustState :=
  match s.servers.find? (fun r => r.host == host) with
  | none => s
  | some _ =>
    { s with servers := s.servers.filter (fun r => !(r.host == host)) }

def trustStep (enabled : Bool) (mode : String) (s : TrustState) :
    TrustOp → TrustState
  | .handshakeVerify host serverId publicKey displayName nowMs =>
    verifyStep enabled mode s host serverId publicKey displayName nowMs
  | .adminSetTrust host level => setTrustStep s host level
  | .adminDelete host => deleteStep s host

def trustRun (enabled : Bool) (mode : String) (s : TrustState)
    (ops : List TrustOp) : TrustState :=
  ops.foldl (trustStep enabled mode) s

/-- Whether an operation makes `h` reach `trusted` (the two welcome
trigger sites: open-mode auto-trust at insertion, admin promotion from a
non-trusted level). -/
def triggersWelcome (enabled : Bool) (mode : String) (s : TrustState)
    (op : TrustOp) (h : String) : Bool :=
  match op with
  | .handshakeVerify host serverId publicKey _ _ =>
    host == h && enabled && jsStrTruthy host && jsStrTruthy serverId &&
    jsStrTruthy publicKey &&
    (s.servers.find? (fun r => r.host == host)).isNone && mode == "open"
  | .adminSetTrust host level =>
    host == h && jsTruthyOptStr (some level) &&
    (["pending", "trusted", "blocked"].contains level) &&
    (match s.servers.find? (fun r => r.host == host) with
     | some existing =>
       level == "trusted" && existing.trustLevel != "trusted"
     | none => false)
  | .adminDelete _ => false

/-- `h` reaches `trusted` at some point while running `ops`. -/
def reachesTrusted (enabled : Bool) (mode : String) :
    TrustState → List TrustOp → String → Bool
  | _, [], _ => false
  | s, op :: ops, h =>
    triggersWelcome enabled mode s op h ||
      reachesTrusted enabled mode (trustStep enabled mode s op) ops h

def opHost : TrustOp → String
  | .handshakeVerify host _ _ _ _ => host
  | .adminSetTrust host _ => host
  | .adminDelete host => host

/-- Each registry operation either leaves the welcome bookkeeping
untouched — and can then only have fired for a host already in the dedup
set — or records exactly one new delivery for its host, which was not in
the dedup set, and fires exactly for that host. -/
theorem trustStep_welcome (enabled : Bool) (mode : String) (s : TrustState)
    (op : TrustOp) :
    ((trustStep enabled mode s op).welcomeSentTo = s.welcomeSentTo ∧
     (trustStep enabled mode s op).welcomeDeliveries = s.welcomeDeliveries ∧
     ∀ x, triggersWelcome enabled mode s op x = true →
       x ∈ s.welcomeSentTo) ∨
    (opHost op ∉ s.welcomeSentTo ∧
     (trustStep enabled mode s op).welcomeSentTo =
       opHost op :: s.welcomeSentTo ∧
     (trustStep enabled mode s op).welcomeDeliveries =
       opHost op :: s.welcomeDeliveries ∧
     ∀ x, triggersWelcome enabled mode s op x = (opHost op == x)) := by
  cases op with
  | handshakeVerify host serverId publicKey displayName nowMs =>
    show _ ∨ (host ∉ s.welcomeSentTo ∧ _)
    cases he : enabled with
    | false =>
      left
      simp [trustStep, verifyStep, triggersWelcome, he]
    | true =>
      cases h1 : jsStrTruthy host with
      | false =>
        left
        simp [trustStep, verifyStep, triggersWelcome, he, h1]
      | true =>
        cases h2 : jsStrTruthy serverId with
        | false =>
          left
          simp [trustStep, verifyStep, triggersWelcome, he, h1, h2]
        | true =>
          cases h3 : jsStrTruthy publicKey with
          | false =>
            left
            simp [trustStep, verifyStep, triggersWelcome, he, h1, h2, h3]
          | true =>
            cases hf : s.servers.find? (fun r => r.host == host) with
            | some r =>
              left
              simp [trustStep, verifyStep, triggersWelcome, he, h1, h2,
                h3, hf]
            | none =>
              cases hm : mode == "open" with
              | false =>
                left
                simp [trustStep, verifyStep, triggersWelcome, he, h1,
                  h2, h3, hf, hm]
              | true =>
                by_cases hmem : host ∈ s.welcomeSentTo
                · left
                  simp [trustStep, verifyStep, triggersWelcome,
                    sendWelcomeCookie, opHost, he, h1, h2, h3, hf, hm,
                    hmem]
                · right
                  simp [trustStep, verifyStep, triggersWelcome,
                    sendWelcomeCookie, opHost, he, h1, h2, h3, hf, hm,
                    hmem]
  | adminSetTrust host level =>
    show _ ∨ (host ∉ s.welcomeSentTo ∧ _)
    cases hv : jsTruthyOptStr (some level) with
    | false =>
      left
      simp [trustStep, setTrustStep, triggersWelcome, hv]
    | true =>
      by_cases hc : ¬level = "pending" ∧ ¬level = "trusted" ∧
          ¬level = "blocked"
      · left
        simp [trustStep, setTrustStep, triggersWelcome, hv, hc]
      · cases hf : s.servers.find? (fun r => r.host == host) with
        | none =>
          left
          simp [trustStep, setTrustStep, triggersWelcome, hv, hf]
        | some existing =>
          by_cases hp : level = "trusted" ∧
              ¬existing.trustLevel = "trusted"
          · obtain ⟨hp1, hp2⟩ := hp
            subst hp1
            by_cases hmem : host ∈ s.welcomeSentTo
            · left
              simp [trustStep, setTrustStep, triggersWelcome,
                sendWelcomeCookie, opHost, hv, hc, hf, hp2, hmem]
            · right
              simp [trustStep, setTrustStep, triggersWelcome,
                sendWelcomeCookie, opHost, hv, hc, hf, hp2, hmem]
          · left
            simp [trustStep, setTrustStep, triggersWelcome, hv, hc,
              hf, hp]
  | adminDelete host =>
    left
    cases hf : s.servers.find? (fun r => r.host == host) with
    | none => simp [trustStep, deleteStep, triggersWelcome, hf]
    | some r => simp [trustStep, deleteStep, triggersWelcome, hf]

/-- The welcome invariant: the delivery log holds exactly one entry for
every host in the dedup set and none for any other host. -/
def welcomeInv (s : TrustState) : Prop :=
  ∀ h, s.welcomeDeliveries.count h =
    if h ∈ s.welcomeSentTo then 1 else 0

theorem trustStep_welcomeInv (enabled : Bool) (mode : String)
    (s : TrustState) (op : TrustOp) (hinv : welcomeInv s) :
    welcomeInv (trustStep enabled mode s op) := by
  rcases trustStep_welcome enabled mode s op with
    ⟨h1, h2, -⟩ | ⟨hmem, h1, h2, -⟩
  · intro x
    rw [h1, h2]
    exact hinv x
  · intro x
    rw [h1, h2]
    by_cases hx : x = opHost op
    · subst hx
      have := hinv (opHost op)
      rw [if_neg hmem] at this
      simp [List.count_cons, this, hmem]
    · have := hinv x
      simp [List.count_cons, this, hx, List.mem_cons]

theorem trustStep_welcomeSentTo_mem (enabled : Bool) (mode : String)
    (s : TrustState) (op : TrustOp) (x : String) :
    x ∈ (trustStep enabled mode s op).welcomeSentTo ↔
      x ∈ s.welcomeSentTo ∨
        triggersWelcome enabled mode s op x = true := by
  rcases trustStep_welcome enabled mode s op with
    ⟨h1, -, h3⟩ | ⟨hmem, h1, -, h3⟩
  · rw [h1]
    exact ⟨Or.inl, fun hx => hx.elim id (h3 x)⟩
  · rw [h1, h3 x]
    simp only [List.mem_cons, beq_iff_eq]
    constructor
    · rintro (hx | hx)
      · exact Or.inr hx.symm
      · exact Or.inl hx
    · rintro (hx | hx)
      · exact Or.inr hx
      · exact Or.inl hx.symm

theorem trustRun_welcomeInv (enabled : Bool) (mode : String) :
    ∀ (ops : List TrustOp) (s : TrustState),
      welcomeInv s → welcomeInv (trustRun enabled mode s ops)
  | [], _, h => h
  | op :: ops, s, h =>
    trustRun_welcomeInv enabled mode ops (trustStep enabled mode s op)
      (trustStep_welcomeInv enabled mode s op h)

theorem trustRun_welcomeSentTo_mem (enabled : Bool) (mode : String) :
    ∀ (ops : List TrustOp) (s : TrustState) (x : String),
      x ∈ (trustRun enabled mode s ops).welcomeSentTo ↔
        x ∈ s.welcomeSentTo ∨
          reachesTrusted enabled mode s ops x = true
  | [], s, x => by simp [trustRun, reachesTrusted]
  | op :: ops, s, x => by
    have hstep : trustRun enabled mode s (op :: ops) =
        trustRun enabled mode (trustStep enabled mode s op) ops := rfl
    rw [hstep,
      trustRun_welcomeSentTo_mem enabled mode ops
        (trustStep enabled mode s op) x,
      trustStep_welcomeSentTo_mem enabled mode s op x]
    simp [reachesTrusted, or_assoc]

/-- C8: a handshake verify call for a host with no existing peer row
inserts the peer with trust level `pending` under allowlist mode and
`trusted` under open mode; and starting from a fresh process (empty
welcome dedup set and delivery log), after any sequence of handshake and
admin operations the number of welcome deliveries recorded for a host is
exactly one if some operation made it reach `trusted` for the first
time, and zero otherwise — never two. -/
theorem trust_registry_welcome_once (enabled : Bool) (mode : String)
    (dbRows : List ServerRow) (ops : List TrustOp) (s : TrustState)
    (host serverId publicKey : String) (displayName : Option String)
    (nowMs : Nat) (he : enabled = true)
    (h1 : jsStrTruthy host = true) (h2 : jsStrTruthy serverId = true)
    (h3 : jsStrTruthy publicKey = true)
    (hf : s.servers.find? (fun r => r.host == host) = none) :
    (verifyStep enabled mode s host serverId publicKey displayName
        nowMs).servers =
      s.servers ++
        [{ host := host, serverId := serverId, publicKey := publicKey,
           displayName := displayName,
           trustLevel := if mode == "open" then "trusted" else "pending",
           protocolVersion := some "1.2.4", lastSeenAt := some nowMs,
           firstSeenAt := nowMs, metadata := none }] ∧
    ∀ h, (trustRun enabled mode
        { servers := dbRows, welcomeSentTo := [],
          welcomeDeliveries := [] } ops).welcomeDeliveries.count h =
      if reachesTrusted enabled mode
          { servers := dbRows, welcomeSentTo := [],
            welcomeDeliveries := [] } ops h
        then 1 else 0 := by
  constructor
  · cases hm : mode == "open" with
    | false => simp [verifyStep, he, h1, h2, h3, hf, hm]
    | true =>
      by_cases hmem : host ∈ s.welcomeSentTo <;>
        simp [verifyStep, sendWelcomeCookie, he, h1, h2, h3, hf, hm,
          hmem]
  · intro h
    have hinv := trustRun_welcomeInv enabled mode ops
      { servers := dbRows, welcomeSentTo := [], welcomeDeliveries := [] }
      (fun x => by simp)
    rw [hinv h]
    have hiff := trustRun_welcomeSentTo_mem enabled mode ops
      { servers := dbRows, welcomeSentTo := [], welcomeDeliveries := [] }
      h
    by_cases hr : reachesTrusted enabled mode
        { servers := dbRows, welcomeSentTo := [],
          welcomeDeliveries := [] } ops h = true
    · rw [if_pos (hiff.mpr (Or.inr hr)), if_pos hr]
    · rw [if_neg (fun hx => (hiff.mp hx).elim (fun hc => by simp at hc)
        hr), if_neg hr]

/-- Concrete run for the welcome-once theorem: under open mode a fresh
host is verified twice; the delivery count for it is given by the
theorem's formula. -/
theorem trust_registry_welcome_once_witness :
    jsStrTruthy "peer.example" = true ∧
    (trustRun true "open"
        { servers := [], welcomeSentTo := [], welcomeDeliveries := [] }
        [TrustOp.handshakeVerify "peer.example" "sid" "pk" none 0,
         TrustOp.handshakeVerify "peer.example" "sid" "pk" none 5]
      ).welcomeDeliveries.count "peer.example" =
      if reachesTrusted true "open"
          { servers := [], welcomeSentTo := [], welcomeDeliveries := [] }
          [TrustOp.handshakeVerify "peer.example" "sid" "pk" none 0,
           TrustOp.handshakeVerify "peer.example" "sid" "pk" none 5]
          "peer.example"
        then 1 else 0 :=
  ⟨by decide,
   (trust_registry_welcome_once true "open" []
      [TrustOp.handshakeVerify "peer.example" "sid" "pk" none 0,
       TrustOp.handshakeVerify "peer.example" "sid" "pk" none 5]
      { servers := [], welcomeSentTo := [], welcomeDeliveries := [] }
      "peer.example" "sid" "pk" none 0 rfl (by decide) (by decide)
      (by decide) rfl).2 "peer.example"⟩

/-! ## Outbound delivery engine (`federationOutbound.ts`)

The outbox table is a list of rows; `deliveredLog` collects the
`federated_tez` rows inserted on successful delivery.  ISO timestamps
are modelled as milliseconds.  The network attempt (discovery, signing,
fetch) is abstracted by an `AttemptOutcome`: `success` when the remote
answered ok/207, `failure` when anything in the `try` block threw. -/

def RETRY_DELAYS_MS : List Nat :=
  [60000, 5 * 60000, 30 * 60000, 2 * 60 * 60000, 12 * 60 * 60000]

def MAX_ATTEMPTS : Nat := RETRY_DELAYS_MS.length

structure OutboxEntry where
  id : String
  tezId : String
  targetHost : String
  targetAddresses : List String
  status : String
  attempts : Nat
  lastAttemptAt : Option Nat
  nextRetryAt : Nat
  createdAt : Nat
  deliveredAt : Option Nat
  error : Option String
deriving Repr, DecidableEq

structure OutboxState where
  outbox : List OutboxEntry
  deliveredLog : List (String × String)
deriving Repr, DecidableEq

inductive AttemptOutcome where
  | success
  | failure (msg : String)
deriving Repr, DecidableEq

/-- `RETRY_DELAYS_MS[attempts - 1] || RETRY_DELAYS_MS[len - 1]`: a JS
out-of-bounds read is `undefined` (falsy), and a `0` entry would also be
falsy, so both fall back to the last delay. -/
def retryDelay (attempts : Nat) : Nat :=
  match RETRY_DELAYS_MS.get? (attempts - 1) with
  | some d =>
    if d = 0 then RETRY_DELAYS_MS.getD (RETRY_DELAYS_MS.length - 1) 0
    else d
  | none => RETRY_DELAYS_MS.getD (RETRY_DELAYS_MS.length - 1) 0

def outboxFind (st : OutboxState) (outboxId : String) :
    Option OutboxEntry :=
  st.outbox.find? (fun e => e.id == outboxId)

def processOutboxEntry (outcome : AttemptOutcome) (nowMs : Nat)
    (st : OutboxState) (outboxId : String) : OutboxState :=
  match st.outbox.find? (fun e => e.id == outboxId) with
  | none => st
  | some entry =>
    if entry.status == "delivered" || entry.status == "expired" then st
    else
      match outcome with
      | .success =>
        { st with
            outbox := st.outbox.map (fun e =>
              if e.id == outboxId then
                { e with status := "delivered", deliveredAt := some nowMs,
                         lastAttemptAt := some nowMs,
                         attempts := entry.attempts + 1 }
              else e),
            deliveredLog :=
              (entry.tezId, entry.targetHost) :: st.deliveredLog }
      | .failure msg =>
        let attempts := entry.attempts + 1
        if attempts ≥ MAX_ATTEMPTS then
          { st with outbox := st.outbox.map (fun e =>
              if e.id == outboxId then
                { e with status := "expired", attempts := attempts,
                         lastAttemptAt := some nowMs, error := some msg }
              else e) }
        else
          { st with outbox := st.outbox.map (fun e =>
              if e.id == outboxId then
                { e with status := "failed", attempts := attempts,
                         lastAttemptAt := some nowMs,
                         nextRetryAt := nowMs + retryDelay attempts,
                         error := some msg }
              else e) }

/-- `processOutboxQueue`: failed entries due for retry (up to 50) plus
fresh pending entries (up to 50), each processed in order. -/
def processOutboxQueue (outcome : String → AttemptOutcome) (nowMs : Nat)
    (st : OutboxState) : OutboxState :=
  let dueFailed := (st.outbox.filter (fun e =>
    decide (e.nextRetryAt ≤ nowMs) && e.status == "failed")).take 50
  let fresh := (st.outbox.filter (fun e => e.status == "pending")).take 50
  let all := dueFailed ++ fresh
  (all.map (fun e => e.id)).foldl
    (fun acc i => processOutboxEntry (outcome i) nowMs acc i) st

/-- `routeToFederation`: one outbox insert (status `pending`, zero
attempts) per remote host, each followed by an immediate delivery
attempt.  `freshIds` supplies the `randomUUID()` results. -/
def routeToFederation (enabled : Bool)
    (outcome : String → AttemptOutcome) (nowMs : Nat)
    (freshIds : List String) (tezId : String)
    (remoteRecipients : List (String × List String))
    (st : OutboxState) : OutboxState :=
  if !enabled then st
  else
    (freshIds.zip remoteRecipients).foldl (fun acc p =>
      let st1 := { acc with outbox := acc.outbox ++
        [{ id := p.1, tezId := tezId, targetHost := p.2.1,
           targetAddresses := p.2.2, status := "pending", attempts := 0,
           lastAttemptAt := none, nextRetryAt := nowMs,
           createdAt := nowMs, deliveredAt := none, error := none }] }
      processOutboxEntry (outcome p.1) nowMs st1 p.1) st

theorem find?_map_pres {α : Type} (h : α → α) (p : α → Bool)
    (hp : ∀ x, p (h x) = p x) :
    ∀ l : List α, (l.map h).find? p = (l.find? p).map h
  | [] => rfl
  | x :: l => by
    cases hx : p x with
    | true =>
      rw [List.map_cons, List.find?_cons_of_pos _ (by rw [hp x, hx]),
        List.find?_cons_of_pos _ hx]
      rfl
    | false =>
      rw [List.map_cons, List.find?_cons_of_neg _ (by simp [hp x, hx]),
        List.find?_cons_of_neg _ (by simp [hx]),
        find?_map_pres h p hp l]

theorem find?_append_some {α : Type} (p : α → Bool) (e : α) :
    ∀ (l l' : List α), l.find? p = some e → (l ++ l').find? p = some e
  | [], _, h => by simp at h
  | x :: l, l', h => by
    cases hx : p x with
    | true =>
      rw [List.find?_cons_of_pos _ hx] at h
      rw [List.cons_append, List.find?_cons_of_pos _ hx]
      exact h
    | false =>
      rw [List.find?_cons_of_neg _ (by simp [hx])] at h
      rw [List.cons_append, List.find?_cons_of_neg _ (by simp [hx])]
      exact find?_append_some p e l l' h

/-- The terminal-status guard: once an entry reads back as `delivered`
or `expired`, a single delivery attempt (for it or for any other id)
leaves it untouched. -/
theorem processOutboxEntry_preserves_terminal (o : AttemptOutcome)
    (now : Nat) (st : OutboxState) (i j : String) (e : OutboxEntry)
    (hfind : outboxFind st i = some e)
    (hterm : e.status = "delivered" ∨ e.status = "expired") :
    outboxFind (processOutboxEntry o now st j) i = some e := by
  unfold outboxFind at hfind ⊢
  have hid : e.id = i := by simpa using List.find?_some hfind
  unfold processOutboxEntry
  cases hj : st.outbox.find? (fun x => x.id == j) with
  | none => exact hfind
  | some entry =>
    simp only []
    by_cases ht2 : (entry.status == "delivered" ||
        entry.status == "expired") = true
    · rw [if_pos ht2]
      exact hfind
    · have hij : ¬i = j := by
        intro hEq
        subst hEq
        rw [hfind] at hj
        injection hj with hj
        subst hj
        rcases hterm with hs | hs <;> simp [hs] at ht2
      rw [if_neg ht2]
      have hej : (e.id == j) = false := by simp [hid, hij]
      cases o with
      | success =>
        simp only []
        rw [find?_map_pres _ _
          (fun x => by by_cases hx : (x.id == j) = true <;>
            simp [hx]), hfind]
        simp [hid, hij]
      | failure msg =>
        simp only []
        by_cases hmax : entry.attempts + 1 ≥ MAX_ATTEMPTS
        · rw [if_pos hmax]
          rw [find?_map_pres _ _
            (fun x => by by_cases hx : (x.id == j) = true <;>
              simp [hx]), hfind]
          simp [hid, hij]
        · rw [if_neg hmax]
          rw [find?_map_pres _ _
            (fun x => by by_cases hx : (x.id == j) = true <;>
              simp [hx]), hfind]
          simp [hid, hij]

theorem processFold_preserves_terminal
    (outcome : String → AttemptOutcome) (now : Nat) (i : String)
    (e : OutboxEntry)
    (hterm : e.status = "delivered" ∨ e.status = "expired") :
    ∀ (ids : List String) (st : OutboxState),
      outboxFind st i = some e →
      outboxFind (ids.foldl
        (fun acc jj => processOutboxEntry (outcome jj) now acc jj) st) i
        = some e
  | [], _, h => h
  | jj :: ids, st, h =>
    processFold_preserves_terminal outcome now i e hterm ids
      (processOutboxEntry (outcome jj) now st jj)
      (processOutboxEntry_preserves_terminal (outcome jj) now st i jj e
        h hterm)

theorem routeFold_preserves_terminal
    (outcome : String → AttemptOutcome) (now : Nat) (tezId : String)
    (i : String) (e : OutboxEntry)
    (hterm : e.status = "delivered" ∨ e.status = "expired") :
    ∀ (pairs : List (String × String × List String))
      (st : OutboxState),
      outboxFind st i = some e →
      outboxFind (pairs.foldl (fun acc p =>
        let st1 := { acc with outbox := acc.outbox ++
          [{ id := p.1, tezId := tezId, targetHost := p.2.1,
             targetAddresses := p.2.2, status := "pending",
             attempts := 0, lastAttemptAt := none, nextRetryAt := now,
             createdAt := now, deliveredAt := none, error := none }] }
        processOutboxEntry (outcome p.1) now st1 p.1) st) i = some e
  | [], _, h => h
  | p :: pairs, st, h => by
    rw [List.foldl_cons]
    exact routeFold_preserves_terminal outcome now tezId i e hterm
      pairs _
      (processOutboxEntry_preserves_terminal (outcome p.1) now _ i p.1 e
        (find?_append_some _ e st.outbox _ h) hterm)

/-- C9: `delivered` and `expired` are terminal.  Once an outbox entry
reads back in a terminal status, no later engine operation — a single
delivery attempt (for it or any other entry), a full queue sweep, or
routing a new message to federation — changes any of its fields. -/
theorem outbox_terminal_states_final (st : OutboxState) (i : String)
    (e : OutboxEntry) (hfind : outboxFind st i = some e)
    (hterm : e.status = "delivered" ∨ e.status = "expired") :
    (∀ (o : AttemptOutcome) (now : Nat) (j : String),
       outboxFind (processOutboxEntry o now st j) i = some e) ∧
    (∀ (outcome : String → AttemptOutcome) (now : Nat),
       outboxFind (processOutboxQueue outcome now st) i = some e) ∧
    (∀ (enabled : Bool) (outcome : String → AttemptOutcome) (now : Nat)
       (freshIds : List String) (tezId : String)
       (remoteRecipients : List (String × List String)),
       outboxFind (routeToFederation enabled outcome now freshIds tezId
         remoteRecipients st) i = some e) := by
  refine ⟨?_, ?_, ?_⟩
  · intro o now j
    exact processOutboxEntry_preserves_terminal o now st i j e hfind
      hterm
  · intro outcome now
    unfold processOutboxQueue
    exact processFold_preserves_terminal outcome now i e hterm _ st
      hfind
  · intro enabled outcome now freshIds tezId remoteRecipients
    unfold routeToFederation
    by_cases hen : enabled
    · rw [if_neg (by simp [hen])]
      exact routeFold_preserves_terminal outcome now tezId i e hterm
        (freshIds.zip remoteRecipients) st hfind
    · rw [if_pos (by simp [hen])]
      exact hfind

def obDelivered : OutboxEntry :=
  { id := "o1", tezId := "t1", targetHost := "peer.example",
    targetAddresses := ["u@peer.example"], status := "delivered",
    attempts := 1, lastAttemptAt := some 10, nextRetryAt := 0,
    createdAt := 0, deliveredAt := some 10, error := none }

def obStDelivered : OutboxState :=
  { outbox := [obDelivered], deliveredLog := [("t1", "peer.example")] }

/-- A delivered entry survives a failing re-attempt, a queue sweep, and
the routing of a fresh message completely unchanged. -/
theorem outbox_terminal_states_final_witness :
    outboxFind obStDelivered "o1" = some obDelivered ∧
    outboxFind (processOutboxEntry (AttemptOutcome.failure "down") 99
        obStDelivered "o1") "o1" = some obDelivered ∧
    outboxFind (processOutboxQueue
        (fun _ => AttemptOutcome.failure "down") 99 obStDelivered)
      "o1" = some obDelivered ∧
    outboxFind (routeToFederation true
        (fun _ => AttemptOutcome.success) 99 ["o9"] "t9"
        [("other.example", ["v@other.example"])] obStDelivered)
      "o1" = some obDelivered := by
  have h := outbox_terminal_states_final obStDelivered "o1" obDelivered
    rfl (Or.inl rfl)
  exact ⟨rfl, h.1 (AttemptOutcome.failure "down") 99 "o1",
    h.2.1 (fun _ => AttemptOutcome.failure "down") 99,
    h.2.2 true (fun _ => AttemptOutcome.success) 99 ["o9"] "t9"
      [("other.example", ["v@other.example"])]⟩

/-- Effect of one failing attempt on a non-terminal entry: attempts is
incremented; at `MAX_ATTEMPTS` the entry expires (no new retry is
scheduled, `nextRetryAt` keeps its old value), otherwise it is marked
`failed` with `nextRetryAt` pushed out by the schedule delay for the new
attempt count. -/
theorem processOutboxEntry_failure_eq (msg : String) (now : Nat)
    (st : OutboxState) (i : String) (e : OutboxEntry)
    (hfind : outboxFind st i = some e)
    (hd : e.status ≠ "delivered") (hx : e.status ≠ "expired") :
    outboxFind (processOutboxEntry (.failure msg) now st i) i =
      some (if e.attempts + 1 ≥ MAX_ATTEMPTS then
        { e with status := "expired", attempts := e.attempts + 1,
                 lastAttemptAt := some now, error := some msg }
      else
        { e with status := "failed", attempts := e.attempts + 1,
                 lastAttemptAt := some now,
                 nextRetryAt := now + retryDelay (e.attempts + 1),
                 error := some msg }) := by
  unfold outboxFind at hfind ⊢
  have hid : e.id = i := by simpa using List.find?_some hfind
  have hguard : (e.status == "delivered" || e.status == "expired") =
      false := by simp [hd, hx]
  unfold processOutboxEntry
  rw [hfind]
  simp only [hguard, Bool.false_eq_true, if_false]
  by_cases hmax : e.attempts + 1 ≥ MAX_ATTEMPTS
  · rw [if_pos hmax, if_pos hmax]
    rw [find?_map_pres _ _
      (fun x => by by_cases hxx : (x.id == i) = true <;> simp [hxx]),
      hfind]
    simp [hid]
  · rw [if_neg hmax, if_neg hmax]
    rw [find?_map_pres _ _
      (fun x => by by_cases hxx : (x.id == i) = true <;> simp [hxx]),
      hfind]
    simp [hid]

/-- C7: a pending entry failing five consecutive attempts moves through
`failed` four times and then `expired`, attempts counting 1..5;
failures 1–4 schedule `nextRetryAt` 1 min, 5 min, 30 min and 2 h after
the respective failure, while the fifth failure expires the entry
without scheduling (its `nextRetryAt` keeps the fourth failure's
value — the schedule's 12 h slot is never applied); the delay lookup
itself clamps to the last schedule value once the attempt number
exceeds the schedule length. -/
theorem outbox_retry_schedule (st : OutboxState) (i : String)
    (e : OutboxEntry) (m1 m2 m3 m4 m5 : String)
    (t1 t2 t3 t4 t5 : Nat)
    (hfind : outboxFind st i = some e)
    (hstatus : e.status = "pending") (hatt : e.attempts = 0) :
    let s1 := processOutboxEntry (.failure m1) t1 st i
    let s2 := processOutboxEntry (.failure m2) t2 s1 i
    let s3 := processOutboxEntry (.failure m3) t3 s2 i
    let s4 := processOutboxEntry (.failure m4) t4 s3 i
    let s5 := processOutboxEntry (.failure m5) t5 s4 i
    outboxFind s1 i = some { e with
      status := "failed", attempts := 1, lastAttemptAt := some t1,
      nextRetryAt := t1 + 60000, error := some m1 } ∧
    outboxFind s2 i = some { e with
      status := "failed", attempts := 2, lastAttemptAt := some t2,
      nextRetryAt := t2 + 5 * 60000, error := some m2 } ∧
    outboxFind s3 i = some { e with
      status := "failed", attempts := 3, lastAttemptAt := some t3,
      nextRetryAt := t3 + 30 * 60000, error := some m3 } ∧
    outboxFind s4 i = some { e with
      status := "failed", attempts := 4, lastAttemptAt := some t4,
      nextRetryAt := t4 + 2 * 60 * 60000, error := some m4 } ∧
    outboxFind s5 i = some { e with
      status := "expired", attempts := 5, lastAttemptAt := some t5,
      nextRetryAt := t4 + 2 * 60 * 60000, error := some m5 } ∧
    (∀ a, RETRY_DELAYS_MS.length ≤ a →
      retryDelay (a + 1) = 12 * 60 * 60000) := by
  intro s1 s2 s3 s4 s5
  have h1 : outboxFind s1 i = some { e with
      status := "failed", attempts := 1, lastAttemptAt := some t1,
      nextRetryAt := t1 + 60000, error := some m1 } := by
    have h := processOutboxEntry_failure_eq m1 t1 st i e hfind
      (by rw [hstatus]; decide) (by rw [hstatus]; decide)
    rw [hatt] at h
    rw [if_neg (by decide)] at h
    exact h
  have h2 : outboxFind s2 i = some { e with
      status := "failed", attempts := 2, lastAttemptAt := some t2,
      nextRetryAt := t2 + 5 * 60000, error := some m2 } := by
    have h := processOutboxEntry_failure_eq m2 t2 s1 i _ h1
      (by simp) (by simp)
    rw [if_neg (by simp [MAX_ATTEMPTS, RETRY_DELAYS_MS])] at h
    exact h
  have h3 : outboxFind s3 i = some { e with
      status := "failed", attempts := 3, lastAttemptAt := some t3,
      nextRetryAt := t3 + 30 * 60000, error := some m3 } := by
    have h := processOutboxEntry_failure_eq m3 t3 s2 i _ h2
      (by simp) (by simp)
    rw [if_neg (by simp [MAX_ATTEMPTS, RETRY_DELAYS_MS])] at h
    exact h
  have h4 : outboxFind s4 i = some { e with
      status := "failed", attempts := 4, lastAttemptAt := some t4,
      nextRetryAt := t4 + 2 * 60 * 60000, error := some m4 } := by
    have h := processOutboxEntry_failure_eq m4 t4 s3 i _ h3
      (by simp) (by simp)
    rw [if_neg (by simp [MAX_ATTEMPTS, RETRY_DELAYS_MS])] at h
    exact h
  have h5 : outboxFind s5 i = some { e with
      status := "expired", attempts := 5, lastAttemptAt := some t5,
      nextRetryAt := t4 + 2 * 60 * 60000, error := some m5 } := by
    have h := processOutboxEntry_failure_eq m5 t5 s4 i _ h4
      (by simp) (by simp)
    rw [if_pos (by simp [MAX_ATTEMPTS, RETRY_DELAYS_MS])] at h
    exact h
  refine ⟨h1, h2, h3, h4, h5, ?_⟩
  intro a ha
  unfold retryDelay
  have hnone : RETRY_DELAYS_MS.get? (a + 1 - 1) = none := by
    rw [Nat.add_sub_cancel]
    exact List.get?_eq_none.mpr ha
  rw [hnone]
  rfl

def obPending : OutboxEntry :=
  { id := "o2", tezId := "t2", targetHost := "peer.example",
    targetAddresses := ["u@peer.example"], status := "pending",
    attempts := 0, lastAttemptAt := none, nextRetryAt := 0,
    createdAt := 0, deliveredAt := none, error := none }

def obStPending : OutboxState :=
  { outbox := [obPending], deliveredLog := [] }

/-- Concrete five-failure run of the retry-schedule theorem. -/
theorem outbox_retry_schedule_witness :
    outboxFind obStPending "o2" = some obPending ∧
    (let s1 := processOutboxEntry (.failure "e1") 10 obStPending "o2"
     let s2 := processOutboxEntry (.failure "e2") 20 s1 "o2"
     let s3 := processOutboxEntry (.failure "e3") 30 s2 "o2"
     let s4 := processOutboxEntry (.failure "e4") 40 s3 "o2"
     let s5 := processOutboxEntry (.failure "e5") 50 s4 "o2"
     outboxFind s1 "o2" = some { obPending with
       status := "failed", attempts := 1, lastAttemptAt := some 10,
       nextRetryAt := 10 + 60000, error := some "e1" } ∧
     outboxFind s2 "o2" = some { obPending with
       status := "failed", attempts := 2, lastAttemptAt := some 20,
       nextRetryAt := 20 + 5 * 60000, error := some "e2" } ∧
     outboxFind s3 "o2" = some { obPending with
       status := "failed", attempts := 3, lastAttemptAt := some 30,
       nextRetryAt := 30 + 30 * 60000, error := some "e3" } ∧
     outboxFind s4 "o2" = some { obPending with
       status := "failed", attempts := 4, lastAttemptAt := some 40,
       nextRetryAt := 40 + 2 * 60 * 60000, error := some "e4" } ∧
     outboxFind s5 "o2" = some { obPending with
       status := "expired", attempts := 5, lastAttemptAt := some 50,
       nextRetryAt := 40 + 2 * 60 * 60000, error := some "e5" } ∧
     (∀ a, RETRY_DELAYS_MS.length ≤ a →
       retryDelay (a + 1) = 12 * 60 * 60000)) :=
  ⟨rfl, outbox_retry_schedule obStPending "o2" obPending
    "e1" "e2" "e3" "e4" "e5" 10 20 30 40 50 rfl rfl rfl⟩

/-- In the concrete five-failure trace no `nextRetryAt` the engine ever
writes equals any failure time plus twelve hours: the 12 h slot of the
schedule is unreachable, because the fifth failure expires the entry
instead of scheduling a retry. -/
theorem outbox_no_12h_delay :
    (let s1 := processOutboxEntry (.failure "e1") 10 obStPending "o2"
     let s2 := processOutboxEntry (.failure "e2") 20 s1 "o2"
     let s3 := processOutboxEntry (.failure "e3") 30 s2 "o2"
     let s4 := processOutboxEntry (.failure "e4") 40 s3 "o2"
     let s5 := processOutboxEntry (.failure "e5") 50 s4 "o2"
     (outboxFind s1 "o2").map (fun x => (x.status, x.nextRetryAt)) =
       some ("failed", 10 + 60000) ∧
     (outboxFind s2 "o2").map (fun x => (x.status, x.nextRetryAt)) =
       some ("failed", 20 + 5 * 60000) ∧
     (outboxFind s3 "o2").map (fun x => (x.status, x.nextRetryAt)) =
       some ("failed", 30 + 30 * 60000) ∧
     (outboxFind s4 "o2").map (fun x => (x.status, x.nextRetryAt)) =
       some ("failed", 40 + 2 * 60 * 60000) ∧
     (outboxFind s5 "o2").map (fun x => (x.status, x.nextRetryAt)) =
       some ("expired", 40 + 2 * 60 * 60000) ∧
     ∀ t ∈ [10, 20, 30, 40, 50],
       ∀ v ∈ [10 + 60000, 20 + 5 * 60000, 30 + 30 * 60000,
              40 + 2 * 60 * 60000],
         v ≠ t + 12 * 60 * 60000) := by decide
